import Mathlib

/-!
Verification of the ObserverNet electronic-voting core
(`apps/api/src/observernet_api`) against its natural-language
specification.  The Python source is shallowly embedded: strings are byte
lists (`Bytes`), SHA-256 is implemented concretely (FIPS 180-4), database
sessions are modelled as explicit state passing with committed-snapshot
traces, and the AES-GCM block-cipher core, PBKDF2 key derivation and
`secrets` randomness are abstracted as function parameters (their byte
values never matter for the claims, only determinism and lengths).
-/

set_option maxRecDepth 10000

namespace ObserverNet

/-- Byte strings: each entry is one byte value (0..255). -/
abbrev Bytes := List Nat

/-- Encode an ASCII Lean string literal as a byte list. -/
def strBytes (s : String) : Bytes := s.data.map Char.toNat

/-! ## SHA-256 (FIPS 180-4), over byte lists -/

/-- Truncate to 32 bits. -/
def w32 (x : Nat) : Nat := x % 4294967296

/-- 32-bit modular addition. -/
def add32 (a b : Nat) : Nat := (a + b) % 4294967296

/-- 32-bit right rotation. -/
def rotr (n x : Nat) : Nat := w32 ((x >>> n) ||| (x <<< (32 - n)))

def sha256K : List Nat :=
  [1116352408, 1899447441, 3049323471, 3921009573, 961987163, 1508970993,
   2453635748, 2870763221, 3624381080, 310598401, 607225278, 1426881987,
   1925078388, 2162078206, 2614888103, 3248222580, 3835390401, 4022224774,
   264347078, 604807628, 770255983, 1249150122, 1555081692, 1996064986,
   2554220882, 2821834349, 2952996808, 3210313671, 3336571891, 3584528711,
   113926993, 338241895, 666307205, 773529912, 1294757372, 1396182291,
   1695183700, 1986661051, 2177026350, 2456956037, 2730485921, 2820302411,
   3259730800, 3345764771, 3516065817, 3600352804, 4094571909, 275423344,
   430227734, 506948616, 659060556, 883997877, 958139571, 1322822218,
   1537002063, 1747873779, 1955562222, 2024104815, 2227730452, 2361852424,
   2428436474, 2756734187, 3204031479, 3329325298]

def sha256H0 : List Nat :=
  [1779033703, 3144134277, 1013904242, 2773480762,
   1359893119, 2600822924, 528734635, 1541459225]

def ssig0 (x : Nat) : Nat := (rotr 7 x) ^^^ (rotr 18 x) ^^^ (x >>> 3)

def ssig1 (x : Nat) : Nat := (rotr 17 x) ^^^ (rotr 19 x) ^^^ (x >>> 10)

def bsig0 (x : Nat) : Nat := (rotr 2 x) ^^^ (rotr 13 x) ^^^ (rotr 22 x)

def bsig1 (x : Nat) : Nat := (rotr 6 x) ^^^ (rotr 11 x) ^^^ (rotr 25 x)

def chF (x y z : Nat) : Nat := (x &&& y) ^^^ ((x ^^^ 0xffffffff) &&& z)

def majF (x y z : Nat) : Nat := (x &&& y) ^^^ (x &&& z) ^^^ (y &&& z)

/-- Extend the 16 message words of a block to the 64-word schedule. -/
def extendSchedule (w : List Nat) : Nat → List Nat
  | 0 => w
  | n + 1 =>
    let t := w.length
    let x := add32 (add32 (ssig1 (w.getD (t - 2) 0)) (w.getD (t - 7) 0))
                   (add32 (ssig0 (w.getD (t - 15) 0)) (w.getD (t - 16) 0))
    extendSchedule (w ++ [x]) n

/-- One compression round; state is the 8-word list [a,b,c,d,e,f,g,h]. -/
def sha256Round (s : List Nat) (kw : Nat × Nat) : List Nat :=
  match s with
  | [a, b, c, d, e, f, g, h] =>
    let t1 := add32 (add32 (add32 h (bsig1 e)) (add32 (chF e f g) kw.1)) kw.2
    let t2 := add32 (bsig0 a) (majF a b c)
    [add32 t1 t2, a, b, c, add32 d t1, e, f, g]
  | _ => s

/-- Compress one 16-word block into the running 8-word state. -/
def sha256Block (h : List Nat) (block : List Nat) : List Nat :=
  let w := extendSchedule block 48
  let s := (sha256K.zip w).foldl sha256Round h
  List.zipWith add32 h s

/-- Big-endian bytes of `x` over `n` bytes. -/
def beBytes (n x : Nat) : Bytes :=
  match n with
  | 0 => []
  | n + 1 => beBytes n (x / 256) ++ [x % 256]

/-- Group bytes into big-endian 32-bit words (length must divide by 4). -/
def bytesToWords : Bytes → List Nat
  | b0 :: b1 :: b2 :: b3 :: rest =>
    (((b0 * 256 + b1) * 256 + b2) * 256 + b3) :: bytesToWords rest
  | _ => []

/-- Split a list into chunks of 16 elements (fuel-based so the kernel
can reduce it). -/
def chunks16Aux : Nat → List Nat → List (List Nat)
  | 0, _ => []
  | _, [] => []
  | fuel + 1, l => l.take 16 :: chunks16Aux fuel (l.drop 16)

def chunks16 (l : List Nat) : List (List Nat) := chunks16Aux l.length l

/-- SHA-256 padding: append 0x80, zeros, and the 64-bit bit length. -/
def sha256Pad (m : Bytes) : Bytes :=
  m ++ [0x80] ++ List.replicate ((119 - (m.length % 64)) % 64) 0
    ++ beBytes 8 (8 * m.length)

/-- SHA-256 digest: 32 bytes. -/
def sha256 (m : Bytes) : Bytes :=
  let final := (chunks16 (bytesToWords (sha256Pad m))).foldl sha256Block sha256H0
  final.flatMap (beBytes 4)

/-- Lower-case hex character (as a byte) for a value below 16. -/
def hexChar (x : Nat) : Nat := if x < 10 then 48 + x else 87 + x

/-- Lower-case hex rendering of a byte list (two chars per byte). -/
def toHex (b : Bytes) : Bytes := b.flatMap (fun x => [hexChar (x / 16), hexChar (x % 16)])

/-- Python's `hashlib.sha256(m).hexdigest()`: 64 lower-case hex chars. -/
def sha256Hex (m : Bytes) : Bytes := toHex (sha256 m)

/-- Python's `str.upper()` on ASCII bytes. -/
def upperBytes (b : Bytes) : Bytes :=
  b.map (fun c => if 97 ≤ c ∧ c ≤ 122 then c - 32 else c)

/-- Python's `str.lower()` on ASCII bytes. -/
def lowerBytes (b : Bytes) : Bytes :=
  b.map (fun c => if 65 ≤ c ∧ c ≤ 90 then c + 32 else c)

/-! ## Decimal rendering (Python `str(n)` / `repr` for ints) -/

/-- Decimal digits of a natural number, most significant first (fuel-based). -/
def natToStrAux : Nat → Nat → Bytes
  | 0, _ => []
  | fuel + 1, n => if n < 10 then [48 + n] else natToStrAux fuel (n / 10) ++ [48 + n % 10]

def natToStr (n : Nat) : Bytes := natToStrAux (n + 1) n

/-- Python `str` of an int (minus sign for negatives). -/
def intToStr (i : Int) : Bytes :=
  if i < 0 then 45 :: natToStr i.natAbs else natToStr i.natAbs

/-! ## Base64 (RFC 4648, as used by Python `base64.b64encode/b64decode`) -/

def b64Char (n : Nat) : Nat :=
  if n < 26 then 65 + n
  else if n < 52 then 71 + n
  else if n < 62 then n - 4
  else if n = 62 then 43
  else 47

def b64CharInv (c : Nat) : Nat :=
  if 65 ≤ c ∧ c ≤ 90 then c - 65
  else if 97 ≤ c ∧ c ≤ 122 then c - 71
  else if 48 ≤ c ∧ c ≤ 57 then c + 4
  else if c = 43 then 62
  else 63

def b64Encode : Bytes → Bytes
  | [] => []
  | [a] => [b64Char (a / 4), b64Char (a % 4 * 16), 61, 61]
  | [a, b] => [b64Char (a / 4), b64Char (a % 4 * 16 + b / 16), b64Char (b % 16 * 4), 61]
  | a :: b :: c :: rest =>
    b64Char (a / 4) :: b64Char (a % 4 * 16 + b / 16) ::
      b64Char (b % 16 * 4 + c / 64) :: b64Char (c % 64) :: b64Encode rest

def b64Decode : Bytes → Bytes
  | c0 :: c1 :: c2 :: c3 :: rest =>
    if c2 = 61 then [b64CharInv c0 * 4 + b64CharInv c1 / 16]
    else if c3 = 61 then
      [b64CharInv c0 * 4 + b64CharInv c1 / 16,
       b64CharInv c1 % 16 * 16 + b64CharInv c2 / 4]
    else
      (b64CharInv c0 * 4 + b64CharInv c1 / 16) ::
        (b64CharInv c1 % 16 * 16 + b64CharInv c2 / 4) ::
        (b64CharInv c2 % 4 * 64 + b64CharInv c3) :: b64Decode rest
  | _ => []

/-! ## Small string-building helpers (Python f-strings and `json.dumps`) -/

/-- The byte of the character `"` (string quote). -/
def QUOTE : Nat := 34

/-- The byte of the character `|` (field separator in f-strings). -/
def PIPE : Nat := 124

/-- Opening / closing brace bytes, used when rendering JSON objects. -/
def LBRACE : Bytes := [123]

def RBRACE : Bytes := [125]

/-- A JSON string literal (the embedding assumes no characters needing
escapes; theorems about serialized data carry that hypothesis). -/
def jStr (s : Bytes) : Bytes := QUOTE :: s ++ [QUOTE]

/-- `"key": ` fragment of a JSON object rendering. -/
def jKey (k : String) : Bytes := jStr (strBytes k) ++ strBytes ": "

/-- Join byte strings with a separator (`", ".join` style). -/
def joinSep (sep : Bytes) : List Bytes → Bytes
  | [] => []
  | [x] => x
  | x :: xs => x ++ sep ++ joinSep sep xs

/-! ## `services/crypto.py` -/

/-- `hash_vote_token(token)`: SHA-256 hex digest of the raw token. -/
def hashVoteToken (token : Bytes) : Bytes := sha256Hex token

/-- `generate_vote_token()`: the 64-hex-char raw secret is random; it is
passed in as a parameter, and the function returns it with its hash. -/
def generateVoteToken (rawToken : Bytes) : Bytes × Bytes :=
  (rawToken, sha256Hex rawToken)

/-- `generate_commitment_salt()`: base64 of 32 random bytes (a parameter). -/
def generateCommitmentSalt (randomBytes : Bytes) : Bytes := b64Encode randomBytes

/-- `create_ballot_commitment(election_id, encrypted_ballot, salt, timestamp)`:
SHA-256 hex of `"{encrypted_ballot}|{salt}|{election_id}|{timestamp}"`. -/
def createBallotCommitment (electionId encryptedBallot salt : Bytes)
    (timestamp : Nat) : Bytes :=
  sha256Hex (encryptedBallot ++ PIPE :: salt ++ PIPE :: electionId
    ++ PIPE :: natToStr timestamp)

/-- `create_voter_receipt(commitment_hash, timestamp, election_id)`: first 16
hex chars of SHA-256 of `"{commitment_hash}|{timestamp}|{election_id}"`,
upper-cased.  (`submit_ballot` in voting.py inlines the same formula.) -/
def createVoterReceipt (commitmentHash : Bytes) (timestamp : Nat)
    (electionId : Bytes) : Bytes :=
  upperBytes ((sha256Hex (commitmentHash ++ PIPE :: natToStr timestamp
    ++ PIPE :: electionId)).take 16)

/-- `create_audit_chain_hash(previous_hash, action, resource, resource_id,
timestamp, details)`: SHA-256 hex of the sorted-key JSON rendering of the
payload dict.  Sorted key order: action, details, previousHash, resource,
resourceId, timestamp.  `detailsJson` is the (sorted-key) JSON rendering of
the details dict, supplied by the caller. -/
def createAuditChainHash (previousHash action resource resourceId timestamp
    detailsJson : Bytes) : Bytes :=
  sha256Hex (LBRACE
    ++ jKey "action" ++ jStr action
    ++ strBytes ", " ++ jKey "details" ++ detailsJson
    ++ strBytes ", " ++ jKey "previousHash" ++ jStr previousHash
    ++ strBytes ", " ++ jKey "resource" ++ jStr resource
    ++ strBytes ", " ++ jKey "resourceId" ++ jStr resourceId
    ++ strBytes ", " ++ jKey "timestamp" ++ jStr timestamp
    ++ RBRACE)

/-- `verify_ballot_commitment`: constant-time comparison of the expected
commitment with the provided one. -/
def verifyBallotCommitment (commitment electionId encryptedBallot salt : Bytes)
    (timestamp : Nat) : Bool :=
  commitment == createBallotCommitment electionId encryptedBallot salt timestamp

/-! ## Ballot selections (`VoteSelection.dict()`) and their JSON form

`encrypt_ballot_selections` serializes the selection dicts with
`json.dumps(selections, sort_keys=True)` and `decrypt_ballot_selections`
parses them back with `json.loads`.  The five dict keys in sorted order are
contestId, optionId, rank, score, writeIn. -/

structure Selection where
  contestId : Bytes
  optionId : Option Bytes
  rank : Option Int
  score : Option Int
  writeIn : Option Bytes
deriving DecidableEq, Repr

/-- JSON rendering of an optional string (`null` or quoted). -/
def jOptStr : Option Bytes → Bytes
  | none => strBytes "null"
  | some s => jStr s

/-- JSON rendering of an optional int (`null` or decimal). -/
def jOptInt : Option Int → Bytes
  | none => strBytes "null"
  | some i => intToStr i

def selTok1 : Bytes := LBRACE ++ jKey "contestId"

def selTok2 : Bytes := strBytes ", " ++ jKey "optionId"

def selTok3 : Bytes := strBytes ", " ++ jKey "rank"

def selTok4 : Bytes := strBytes ", " ++ jKey "score"

def selTok5 : Bytes := strBytes ", " ++ jKey "writeIn"

/-- `json.dumps` of one selection dict (sorted keys, default separators). -/
def dumpSelection (s : Selection) : Bytes :=
  selTok1 ++ jStr s.contestId ++ selTok2 ++ jOptStr s.optionId
    ++ selTok3 ++ jOptInt s.rank ++ selTok4 ++ jOptInt s.score
    ++ selTok5 ++ jOptStr s.writeIn ++ RBRACE

/-- `json.dumps` of the selection list. -/
def dumpSelections (l : List Selection) : Bytes :=
  strBytes "[" ++ joinSep (strBytes ", ") (l.map dumpSelection) ++ strBytes "]"

/-! ### `json.loads` for the exact grammar produced above -/

/-- Consume an expected literal token. -/
def expects (tok input : Bytes) : Option Bytes :=
  if tok.isPrefixOf input then some (input.drop tok.length) else none

/-- Scan up to the closing quote of a string literal. -/
def takeUntilQuote : Bytes → Option (Bytes × Bytes)
  | [] => none
  | c :: rest =>
    if c = QUOTE then some ([], rest)
    else (takeUntilQuote rest).map (fun p => (c :: p.1, p.2))

/-- Parse a quoted string literal. -/
def parseQuoted : Bytes → Option (Bytes × Bytes)
  | c :: rest => if c = QUOTE then takeUntilQuote rest else none
  | [] => none

def isDigit (c : Nat) : Bool := decide (48 ≤ c ∧ c ≤ 57)

def takeDigits : Bytes → Bytes × Bytes
  | [] => ([], [])
  | c :: rest =>
    if isDigit c then
      let p := takeDigits rest
      (c :: p.1, p.2)
    else ([], c :: rest)

/-- Value of a most-significant-first digit string. -/
def valNat (ds : Bytes) : Nat := ds.foldl (fun acc d => acc * 10 + (d - 48)) 0

def parseNat (input : Bytes) : Option (Nat × Bytes) :=
  let p := takeDigits input
  if p.1 = [] then none else some (valNat p.1, p.2)

def parseInt (input : Bytes) : Option (Int × Bytes) :=
  match input with
  | c :: rest =>
    if c = 45 then (parseNat rest).map (fun p => (-(p.1 : Int), p.2))
    else (parseNat input).map (fun p => ((p.1 : Int), p.2))
  | [] => none

def parseOptStr (input : Bytes) : Option (Option Bytes × Bytes) :=
  match expects (strBytes "null") input with
  | some r => some (none, r)
  | none => (parseQuoted input).map (fun p => (some p.1, p.2))

def parseOptInt (input : Bytes) : Option (Option Int × Bytes) :=
  match expects (strBytes "null") input with
  | some r => some (none, r)
  | none => (parseInt input).map (fun p => (some p.1, p.2))

def parseSelection (input : Bytes) : Option (Selection × Bytes) := do
  let r0 ← expects selTok1 input
  let (cid, r1) ← parseQuoted r0
  let r2 ← expects selTok2 r1
  let (oid, r3) ← parseOptStr r2
  let r4 ← expects selTok3 r3
  let (rk, r5) ← parseOptInt r4
  let r6 ← expects selTok4 r5
  let (sc, r7) ← parseOptInt r6
  let r8 ← expects selTok5 r7
  let (wi, r9) ← parseOptStr r8
  let r10 ← expects RBRACE r9
  some (⟨cid, oid, rk, sc, wi⟩, r10)

def parseSelectionsAux : Nat → Bytes → Option (List Selection × Bytes)
  | 0, _ => none
  | fuel + 1, input => do
    let (s, r) ← parseSelection input
    if (strBytes ", ").isPrefixOf r then
      let (l, rest) ← parseSelectionsAux fuel (r.drop 2)
      some (s :: l, rest)
    else
      some ([s], r)

/-- `json.loads` for the serialized selection list (failure = exception). -/
def loadsSelections (input : Bytes) : Option (List Selection) :=
  match expects (strBytes "[") input with
  | none => none
  | some r =>
    if r = strBytes "]" then some []
    else do
      let (l, rest) ← parseSelectionsAux r.length r
      let rfin ← expects (strBytes "]") rest
      if rfin = [] then some l else none

/-! ### Serialization validity: characters Python's `json.dumps` emits
verbatim (printable ASCII, no quote, no backslash). -/

def strOk (s : Bytes) : Prop := ∀ c ∈ s, 32 ≤ c ∧ c ≤ 126 ∧ c ≠ 34 ∧ c ≠ 92

def optStrOk : Option Bytes → Prop
  | none => True
  | some s => strOk s

def selOk (s : Selection) : Prop :=
  strOk s.contestId ∧ optStrOk s.optionId ∧ optStrOk s.writeIn

instance : DecidablePred strOk := fun s =>
  List.decidableBAll _ s

instance : DecidablePred optStrOk := fun o =>
  match o with
  | none => .isTrue trivial
  | some s => inferInstanceAs (Decidable (strOk s))

instance (s : Selection) : Decidable (selOk s) :=
  inferInstanceAs (Decidable (_ ∧ _ ∧ _))

/-! ## `encrypt_ballot_selections` / `decrypt_ballot_selections`

AES-256-GCM with the block-cipher core abstracted: `keystream` gives the
CTR keystream bytes derived from (key, iv), `tag` the authentication tag
over the ciphertext, and `derive` models `derive_election_key`
(PBKDF2-HMAC-SHA256 of the master key salted with the election id).  The
claims hold for every such cipher, so the AES core itself never needs to
be evaluated. -/

structure AesGcm where
  derive : Bytes → Bytes → Bytes
  keystream : Bytes → Bytes → Nat → Nat
  tag : Bytes → Bytes → Bytes → Bytes
  keystream_lt : ∀ k iv i, keystream k iv i < 256
  tag_len : ∀ k iv ct, (tag k iv ct).length = 16
  tag_lt : ∀ k iv ct, ∀ x ∈ tag k iv ct, x < 256

/-- CTR-mode keystream XOR, byte by byte. -/
def ctrXor (ks : Nat → Nat) : Nat → Bytes → Bytes
  | _, [] => []
  | i, p :: rest => (p ^^^ ks i) :: ctrXor ks (i + 1) rest

/-- `AESGCM(key).encrypt(iv, plaintext, None)`: ciphertext with tag appended. -/
def aesgcmEncrypt (A : AesGcm) (key iv pt : Bytes) : Bytes :=
  let ct := ctrXor (A.keystream key iv) 0 pt
  ct ++ A.tag key iv ct

/-- `AESGCM(key).decrypt(iv, ciphertext, None)`: check the trailing 16-byte
tag, then strip the keystream; a tag mismatch raises InvalidTag (`none`). -/
def aesgcmDecrypt (A : AesGcm) (key iv c : Bytes) : Option Bytes :=
  let ct := c.take (c.length - 16)
  let t := c.drop (c.length - 16)
  if t = A.tag key iv ct then some (ctrXor (A.keystream key iv) 0 ct) else none

/-- The dict returned by `encrypt_ballot_selections` (base64 fields). -/
structure EncryptedPayload where
  encrypted : Bytes
  iv : Bytes
  authTag : Bytes
deriving DecidableEq, Repr

def encryptBallotSelections (A : AesGcm) (masterKey ivRand : Bytes)
    (selections : List Selection) (electionId : Bytes) : EncryptedPayload :=
  let key := A.derive masterKey electionId
  let plaintext := dumpSelections selections
  let ciphertext := aesgcmEncrypt A key ivRand plaintext
  let encrypted := ciphertext.take (ciphertext.length - 16)
  let authTag := ciphertext.drop (ciphertext.length - 16)
  { encrypted := b64Encode encrypted
    iv := b64Encode ivRand
    authTag := b64Encode authTag }

def decryptBallotSelections (A : AesGcm) (masterKey : Bytes)
    (payload : EncryptedPayload) (electionId : Bytes) : Option (List Selection) :=
  let key := A.derive masterKey electionId
  let encrypted := b64Decode payload.encrypted
  let iv := b64Decode payload.iv
  let authTag := b64Decode payload.authTag
  let ciphertext := encrypted ++ authTag
  match aesgcmDecrypt A key iv ciphertext with
  | none => none
  | some pt => loadsSelections pt

/-! ## Data model (`database/models.py`) -/

inductive ElectionStatus
  | DRAFT | PUBLISHED | ACTIVE | PAUSED | CLOSED | ARCHIVED
deriving DecidableEq, Repr

inductive VoterStatus
  | PENDING | VERIFIED | VOTED | REJECTED | BLOCKED
deriving DecidableEq, Repr

inductive VoteTokenStatus
  | ISSUED | USED | EXPIRED | REVOKED
deriving DecidableEq, Repr

inductive BallotStatus
  | PENDING | CONFIRMED | TALLIED | SUPERSEDED | REJECTED
deriving DecidableEq, Repr

inductive VoteChannel
  | WEB | WHATSAPP | API | OFFLINE | PAPER
deriving DecidableEq, Repr

/-- Times (DateTime columns) are modelled as naturals; `isoStr` renders them
for the f-strings that feed audit hashes (a decimal stand-in for
`datetime.isoformat`, injective like the original). -/
def isoStr (t : Nat) : Bytes := natToStr t

structure Election where
  id : Bytes
  status : ElectionStatus
  votingStartAt : Nat
  votingEndAt : Nat
  allowVoteChange : Bool
  voteChangeDeadline : Option Nat
deriving DecidableEq, Repr

structure Voter where
  id : Bytes
  electionId : Bytes
  voterHash : Bytes
  status : VoterStatus
  updatedAt : Nat
deriving DecidableEq, Repr

structure VoteToken where
  id : Bytes
  electionId : Bytes
  voterId : Bytes
  tokenHash : Bytes
  status : VoteTokenStatus
  expiresAt : Nat
  usedAt : Option Nat
  version : Nat
  previousTokenId : Option Bytes
deriving DecidableEq, Repr

structure Ballot where
  id : Bytes
  electionId : Bytes
  tokenHash : Bytes
  commitmentHash : Bytes
  commitmentSalt : Bytes
  encryptedBallot : Bytes
  channel : VoteChannel
  status : BallotStatus
  submittedAt : Nat
  version : Nat
  ivMeta : Bytes
  authTagMeta : Bytes
  fabricTxId : Option Bytes
  fabricBlockNum : Option Nat
  fabricTimestamp : Option Bytes
  confirmedAt : Option Nat
deriving DecidableEq, Repr

structure VoteRec where
  id : Bytes
  ballotId : Bytes
  contestId : Bytes
  optionId : Option Bytes
  rank : Option Int
  score : Option Int
  writeIn : Option Bytes
deriving DecidableEq, Repr

structure AuditLog where
  id : Bytes
  userId : Option Bytes
  electionId : Bytes
  orgId : Option Bytes
  action : Bytes
  resource : Bytes
  resourceId : Bytes
  detailsJson : Bytes
  ipAddress : Option Bytes
  hash : Bytes
  previousHash : Option Bytes
  createdAt : Nat
deriving DecidableEq, Repr

structure Contest where
  id : Bytes
  electionId : Bytes
deriving DecidableEq, Repr

structure ContestOption where
  id : Bytes
  contestId : Bytes
deriving DecidableEq, Repr

/-- The transactional database state seen by one request. -/
structure Db where
  elections : List Election
  voters : List Voter
  tokens : List VoteToken
  ballots : List Ballot
  votes : List VoteRec
  audits : List AuditLog
  contests : List Contest
  options : List ContestOption
deriving DecidableEq, Repr

/-- Error taxonomy: `http s d` is an `HTTPException(status_code=s)` with the
reason tagged by `d`; `multipleResults`/`noResult` are SQLAlchemy's
`scalar_one_or_none`/`scalar_one` failures. -/
inductive ErrDetail
  | electionNotFound | electionNotActive | votingNotStarted | votingEnded
  | votingNotOpen | voterNotFound | voterBlocked | voterRejected
  | alreadyVotedNoChange | voteChangeDeadlinePassed | activeTokenExists
  | invalidToken | tokenNotIssued | tokenExpired | noSelections
  | invalidContest | invalidOption | ballotExists
deriving DecidableEq, Repr

inductive ApiError
  | http (status : Nat) (detail : ErrDetail)
  | multipleResults
  | noResult
deriving DecidableEq, Repr

/-- `db.execute(select(...)).scalar_one_or_none()` over the filtered rows:
`none` when no row matches, the row when exactly one does, and an error
(`MultipleResultsFound`) otherwise. -/
def queryOne {α : Type} (l : List α) (p : α → Bool) : Except ApiError (Option α) :=
  match l.filter p with
  | [] => .ok none
  | [x] => .ok (some x)
  | _ => .error .multipleResults

/-- `.scalar_one()`: exactly one row or an error. -/
def queryExactlyOne {α : Type} (l : List α) (p : α → Bool) : Except ApiError α :=
  match l.filter p with
  | [] => .error .noResult
  | [x] => .ok x
  | _ => .error .multipleResults

/-! ## `api/v1/voting.py` — token issuance and ballot submission

Each endpoint runs inside one SQLAlchemy session (`get_db`): staged writes
become visible only at `commit`; an exception before the commit rolls the
whole transaction back.  The embedding returns the endpoint result
together with the list of committed snapshots, in order — an empty list
means the stored state never changed. -/

structure TokenResponse where
  token : Bytes
  expiresAt : Nat
deriving DecidableEq, Repr

structure BallotResponse where
  commitmentHash : Bytes
  receiptCode : Bytes
  submittedAt : Nat
deriving DecidableEq, Repr

/-- Everything `request_vote_token` draws from outside the database: the
clock and the `secrets` values. -/
structure TokenRand where
  now : Nat
  rawToken : Bytes
  vtIdSuffix : Bytes
  alIdSuffix : Bytes
deriving DecidableEq, Repr

/-- Python's `if election.voteChangeDeadline and now > election.voteChangeDeadline`. -/
def deadlinePassed (deadline : Option Nat) (now : Nat) : Bool :=
  match deadline with
  | some d => now > d
  | none => false

/-- Shared success tail of `request_vote_token`: build the token and audit
rows and stage them (`db.add` + the single `commit`). -/
def requestVoteTokenFinish (db : Db) (electionId : Bytes) (r : TokenRand)
    (voter : Voter) (versionPrev : Nat × Option Bytes) :
    Except ApiError (TokenResponse × Db) :=
  let now := r.now
  let (rawToken, tokenHash) := generateVoteToken r.rawToken
  let expiresAt := now + 3600
  let vtId := strBytes "vt_" ++ r.vtIdSuffix
  let voteToken : VoteToken :=
    { id := vtId
      electionId := electionId
      voterId := voter.id
      tokenHash := tokenHash
      status := VoteTokenStatus.ISSUED
      expiresAt := expiresAt
      usedAt := none
      version := versionPrev.1
      previousTokenId := versionPrev.2 }
  let audit : AuditLog :=
    { id := strBytes "al_" ++ r.alIdSuffix
      userId := none
      electionId := electionId
      orgId := none
      action := strBytes "vote.token_issued"
      resource := strBytes "VoteToken"
      resourceId := vtId
      detailsJson := LBRACE ++ jKey "version" ++ natToStr versionPrev.1
        ++ strBytes ", " ++ jKey "voterId_hash"
        ++ jStr ((sha256Hex voter.id).take 16) ++ RBRACE
      ipAddress := none
      hash := sha256Hex (strBytes "token_issued_" ++ vtId ++ strBytes "_" ++ isoStr now)
      previousHash := none
      createdAt := now }
  let db' := { db with tokens := db.tokens ++ [voteToken], audits := db.audits ++ [audit] }
  .ok ({ token := rawToken, expiresAt := expiresAt }, db')

/-- The body of `request_vote_token` up to its single `commit`, as the
explicit decision tree of the Python control flow. -/
def requestVoteTokenCore (db : Db) (electionId voterHash : Bytes) (r : TokenRand) :
    Except ApiError (TokenResponse × Db) :=
  let now := r.now
  match queryOne db.elections (fun e => e.id == electionId) with
  | .error e => .error e
  | .ok none => .error (.http 404 .electionNotFound)
  | .ok (some election) =>
    if election.status ≠ ElectionStatus.ACTIVE then
      .error (.http 400 .electionNotActive)
    else if now < election.votingStartAt then
      .error (.http 400 .votingNotStarted)
    else if now > election.votingEndAt then
      .error (.http 400 .votingEnded)
    else
      match queryOne db.voters
        (fun v => v.electionId == electionId && v.voterHash == voterHash) with
      | .error e => .error e
      | .ok none => .error (.http 404 .voterNotFound)
      | .ok (some voter) =>
        if voter.status = VoterStatus.BLOCKED then
          .error (.http 403 .voterBlocked)
        else if voter.status = VoterStatus.REJECTED then
          .error (.http 403 .voterRejected)
        else if voter.status = VoterStatus.VOTED ∧ ¬election.allowVoteChange then
          .error (.http 409 .alreadyVotedNoChange)
        else if voter.status = VoterStatus.VOTED
            ∧ deadlinePassed election.voteChangeDeadline now then
          .error (.http 409 .voteChangeDeadlinePassed)
        else
          match queryOne db.tokens
            (fun t => t.voterId == voter.id && t.status == VoteTokenStatus.ISSUED
              && now < t.expiresAt) with
          | .error e => .error e
          | .ok (some _) => .error (.http 409 .activeTokenExists)
          | .ok none =>
            if voter.status = VoterStatus.VOTED then
              match queryOne db.tokens (fun t => t.voterId == voter.id) with
              | .error e => .error e
              | .ok (some prev) =>
                requestVoteTokenFinish db electionId r voter (prev.version + 1, some prev.id)
              | .ok none =>
                requestVoteTokenFinish db electionId r voter (1, none)
            else
              requestVoteTokenFinish db electionId r voter (1, none)

/-- `request_vote_token`: result plus committed snapshots. -/
def requestVoteToken (db : Db) (electionId voterHash : Bytes) (r : TokenRand) :
    Except ApiError TokenResponse × List Db :=
  match requestVoteTokenCore db electionId voterHash r with
  | .error e => (.error e, [])
  | .ok (resp, db') => (.ok resp, [db'])

def channelStr : VoteChannel → Bytes
  | .WEB => strBytes "WEB"
  | .WHATSAPP => strBytes "WHATSAPP"
  | .API => strBytes "API"
  | .OFFLINE => strBytes "OFFLINE"
  | .PAPER => strBytes "PAPER"

/-- The selection-validation loop of `submit_ballot`: each selection must
name a contest of the election, and a present option must belong to that
contest. -/
def validateSelections (contests : List Contest) (options : List ContestOption) :
    List Selection → Except ApiError Unit
  | [] => .ok ()
  | s :: rest =>
    if ¬contests.any (fun c => c.id == s.contestId) then
      .error (.http 400 .invalidContest)
    else
      match s.optionId with
      | some oid => do
        let optionOpt ← queryOne options
          (fun o => o.id == oid && o.contestId == s.contestId)
        if optionOpt.isNone then
          .error (.http 400 .invalidOption)
        else
          validateSelections contests options rest
      | none => validateSelections contests options rest

structure FabricResult where
  txId : Bytes
  blockNumber : Nat
  timestamp : Option Bytes
deriving DecidableEq, Repr

/-- Clock values and `secrets` randomness drawn by `submit_ballot`. -/
structure SubmitRand where
  now : Nat
  saltRand : Bytes
  ballotIdSuffix : Bytes
  alIdSuffix : Bytes
  voteIdSuffix : Nat → Bytes
  ivRand : Bytes
  confirmNow : Nat

/-- Success tail of `submit_ballot`: stage the ballot, the vote rows, the
token/voter updates and the audit row; then the first `commit`.  The pure
computations (encryption, salt, commitment, receipt) textually precede the
existing-ballot query in the source; hoisting them into this tail changes
no result and no observable state. -/
def submitBallotFinish (A : AesGcm) (masterKey : Bytes) (db : Db)
    (electionId : Bytes) (tokenHash : Bytes) (selections : List Selection)
    (channel : VoteChannel) (r : SubmitRand) (voteToken : VoteToken)
    (voter : Voter) : BallotResponse × Db :=
  let now := r.now
  let encryptedData := encryptBallotSelections A masterKey r.ivRand selections electionId
  let salt := generateCommitmentSalt r.saltRand
  let timestamp := now * 1000
  let commitmentHash :=
    createBallotCommitment electionId encryptedData.encrypted salt timestamp
  let receiptCode := upperBytes ((sha256Hex (commitmentHash ++ PIPE :: natToStr timestamp
    ++ PIPE :: electionId)).take 16)
  let version := if voteToken.version > 1 then voteToken.version else 1
  let ballot : Ballot :=
    { id := strBytes "bal_" ++ r.ballotIdSuffix
      electionId := electionId
      tokenHash := tokenHash
      commitmentHash := commitmentHash
      commitmentSalt := salt
      encryptedBallot := encryptedData.encrypted
      channel := channel
      status := BallotStatus.PENDING
      submittedAt := now
      version := version
      ivMeta := encryptedData.iv
      authTagMeta := encryptedData.authTag
      fabricTxId := none
      fabricBlockNum := none
      fabricTimestamp := none
      confirmedAt := none }
  let votes := selections.mapIdx (fun i s =>
    { id := strBytes "v_" ++ r.voteIdSuffix i
      ballotId := ballot.id
      contestId := s.contestId
      optionId := s.optionId
      rank := s.rank
      score := s.score
      writeIn := s.writeIn : VoteRec })
  let tokens' := db.tokens.map (fun t =>
    if t.id == voteToken.id then
      { t with status := VoteTokenStatus.USED, usedAt := some now }
    else t)
  let voters' := db.voters.map (fun v =>
    if v.id == voter.id then
      { v with status := VoterStatus.VOTED, updatedAt := now }
    else v)
  let audit : AuditLog :=
    { id := strBytes "al_" ++ r.alIdSuffix
      userId := none
      electionId := electionId
      orgId := none
      action := strBytes "vote.ballot_submitted"
      resource := strBytes "Ballot"
      resourceId := ballot.id
      detailsJson := LBRACE ++ jKey "version" ++ natToStr version
        ++ strBytes ", " ++ jKey "channel" ++ jStr (channelStr channel)
        ++ strBytes ", " ++ jKey "commitmentHash_prefix"
        ++ jStr (commitmentHash.take 16) ++ RBRACE
      ipAddress := none
      hash := sha256Hex (strBytes "ballot_submitted_" ++ ballot.id
        ++ strBytes "_" ++ isoStr now)
      previousHash := none
      createdAt := now }
  let db1 : Db :=
    { db with
      ballots := db.ballots ++ [ballot]
      votes := db.votes ++ votes
      tokens := tokens'
      voters := voters'
      audits := db.audits ++ [audit] }
  ({ commitmentHash := commitmentHash, receiptCode := receiptCode,
     submittedAt := now }, db1)

/-- The body of `submit_ballot` up to its first `commit` (everything that can
raise happens here; all writes are staged in the one transaction), as the
explicit decision tree of the Python control flow. -/
def submitBallotCore (A : AesGcm) (masterKey : Bytes) (db : Db)
    (electionId rawToken : Bytes) (selections : List Selection)
    (channel : VoteChannel) (r : SubmitRand) :
    Except ApiError (BallotResponse × Db) :=
  let now := r.now
  let tokenHash := hashVoteToken rawToken
  match queryOne db.tokens
    (fun t => t.tokenHash == tokenHash && t.electionId == electionId) with
  | .error e => .error e
  | .ok none => .error (.http 401 .invalidToken)
  | .ok (some voteToken) =>
    if voteToken.status ≠ VoteTokenStatus.ISSUED then
      .error (.http 409 .tokenNotIssued)
    else if voteToken.expiresAt < now then
      .error (.http 401 .tokenExpired)
    else
      match queryOne db.elections (fun e => e.id == electionId) with
      | .error e => .error e
      | .ok none => .error (.http 404 .electionNotFound)
      | .ok (some election) =>
        if election.status ≠ ElectionStatus.ACTIVE then
          .error (.http 400 .electionNotActive)
        else if now < election.votingStartAt ∨ now > election.votingEndAt then
          .error (.http 400 .votingNotOpen)
        else if selections = [] then
          .error (.http 400 .noSelections)
        else
          match validateSelections
            (db.contests.filter (fun c => c.electionId == electionId))
            db.options selections with
          | .error e => .error e
          | .ok _ =>
            match queryOne db.ballots (fun b => b.tokenHash == tokenHash) with
            | .error e => .error e
            | .ok (some _) => .error (.http 409 .ballotExists)
            | .ok none =>
              match queryExactlyOne db.voters (fun v => v.id == voteToken.voterId) with
              | .error e => .error e
              | .ok voter =>
                .ok (submitBallotFinish A masterKey db electionId tokenHash
                  selections channel r voteToken voter)

/-- `submit_ballot`: on success the transaction commits, then blockchain
anchoring (when it does not raise `FabricGatewayError`) updates the ballot
and commits a second time.  Snapshots are the committed states in order. -/
def submitBallot (A : AesGcm) (masterKey : Bytes) (db : Db)
    (electionId rawToken : Bytes) (selections : List Selection)
    (channel : VoteChannel) (r : SubmitRand) (fabricRes : Option FabricResult) :
    Except ApiError BallotResponse × List Db :=
  match submitBallotCore A masterKey db electionId rawToken selections channel r with
  | .error e => (.error e, [])
  | .ok (resp, db1) =>
    match fabricRes with
    | none => (.ok resp, [db1])
    | some fr =>
      let ballotId := strBytes "bal_" ++ r.ballotIdSuffix
      let db2 : Db :=
        { db1 with
          ballots := db1.ballots.map (fun b =>
            if b.id == ballotId then
              { b with
                fabricTxId := some fr.txId
                fabricBlockNum := some fr.blockNumber
                fabricTimestamp := fr.timestamp
                status := BallotStatus.CONFIRMED
                confirmedAt := some r.confirmNow }
            else b) }
      (.ok resp, [db1, db2])

/-! ## `api/v1/elections.py` — chained audit entries -/

/-- `get_last_audit_hash`: hash of the most recent entry for the election
(`order_by createdAt desc limit 1`; entries are appended in time order). -/
def getLastAuditHash (db : Db) (electionId : Bytes) : Option Bytes :=
  ((db.audits.filter (fun a => a.electionId == electionId)).getLast?).map (·.hash)

/-- `create_audit_entry`: fetches the previous hash, chains with
`create_audit_chain_hash`, and stages the new row. -/
def createAuditEntry (db : Db) (electionId action resource resourceId : Bytes)
    (userId orgId : Option Bytes) (detailsJson : Bytes) (ipAddress : Option Bytes)
    (now : Nat) (alIdSuffix : Bytes) : AuditLog × Db :=
  let previousHash := getLastAuditHash db electionId
  let entryHash := createAuditChainHash (previousHash.getD []) action resource
    resourceId (isoStr now) detailsJson
  let audit : AuditLog :=
    { id := strBytes "al_" ++ alIdSuffix
      userId := userId
      electionId := electionId
      orgId := orgId
      action := action
      resource := resource
      resourceId := resourceId
      detailsJson := detailsJson
      ipAddress := ipAddress
      hash := entryHash
      previousHash := previousHash
      createdAt := now }
  (audit, { db with audits := db.audits ++ [audit] })

/-! ## `services/mixnet.py` -/

structure MixNode where
  nodeId : Bytes
  publicKey : Bytes
  endpoint : Bytes
  nodeStatus : Bytes
deriving DecidableEq, Repr

/-- An `EncryptedBallot`: its `ciphertext` attribute is the JSON string
`{"c1": ..., "c2": ..., "algorithm": "ElGamal-Threshold"}`; the embedding
stores the two components and renders the JSON where the code hashes it. -/
structure EncryptedBallot where
  ballotId : Bytes
  c1 : Bytes
  c2 : Bytes
  proofOfKnowledge : Bytes
  layer : Nat
deriving DecidableEq, Repr

def ciphertextJson (c1 c2 : Bytes) : Bytes :=
  LBRACE ++ jKey "c1" ++ jStr c1 ++ strBytes ", " ++ jKey "c2" ++ jStr c2
    ++ strBytes ", " ++ jKey "algorithm" ++ jStr (strBytes "ElGamal-Threshold") ++ RBRACE

def ebCiphertext (b : EncryptedBallot) : Bytes := ciphertextJson b.c1 b.c2

structure ShuffleProof where
  proof : Bytes
  permutationCommitment : Bytes
  reEncryptionProof : Bytes
  inputHash : Bytes
  outputHash : Bytes
  nodeId : Bytes
  timestamp : Nat
deriving DecidableEq, Repr

structure DecShare where
  nodeId : Bytes
  share : Bytes
  shareProof : Bytes
deriving DecidableEq, Repr

structure MixnetResult where
  mixedBallots : List EncryptedBallot
  shuffleProofs : List ShuffleProof
  decryptionShares : List DecShare
  finalPermutationProof : Bytes
  processingTimeMs : Nat
deriving DecidableEq, Repr

structure MixNetService where
  threshold : Nat
  totalNodes : Nat
  mixNodes : List MixNode
  masterPublicKey : Option Bytes
deriving DecidableEq, Repr

/-- Lexicographic comparison of byte strings (Python string `sorted`). -/
def bytesLe : Bytes → Bytes → Bool
  | [], _ => true
  | _ :: _, [] => false
  | x :: xs, y :: ys => if x < y then true else if y < x then false else bytesLe xs ys

def insertSorted (x : Bytes) : List Bytes → List Bytes
  | [] => [x]
  | y :: ys => if bytesLe x y then x :: y :: ys else y :: insertSorted x ys

/-- Python `sorted` on a list of strings (insertion sort; same multiset,
ascending order). -/
def sortBytesList (l : List Bytes) : List Bytes := l.foldr insertSorted []

/-- `json.dumps` of a list of strings. -/
def jsonStrList (l : List Bytes) : Bytes :=
  strBytes "[" ++ joinSep (strBytes ", ") (l.map jStr) ++ strBytes "]"

/-- `json.dumps` of a list of ints. -/
def jsonNatList (l : List Nat) : Bytes :=
  strBytes "[" ++ joinSep (strBytes ", ") (l.map natToStr) ++ strBytes "]"

/-- `MixNetService._hash_ballot_list`: hash of the sorted per-ballot
ciphertext hashes. -/
def hashBallotList (ballots : List EncryptedBallot) : Bytes :=
  let hs := ballots.map (fun b => sha256Hex (ebCiphertext b))
  sha256Hex (jsonStrList (sortBytesList hs))

/-- The re-encryption loop of `_shuffle_and_reencrypt`: walk the shuffled
indices, re-randomizing each picked ballot; an out-of-range index is a
Python `IndexError` (`none`). -/
def reencryptAll (ballots : List EncryptedBallot) (node : MixNode)
    (newRand : Nat → Bytes) : Nat → List Nat → Option (List EncryptedBallot)
  | _, [] => some []
  | i, idx :: rest => do
    let b ← ballots.get? idx
    let rand := newRand i
    let rest' ← reencryptAll ballots node newRand (i + 1) rest
    some ({ b with
      c1 := sha256Hex (b.c1 ++ rand)
      c2 := sha256Hex (b.c2 ++ rand ++ node.publicKey)
      layer := b.layer + 1 } :: rest')

/-- `MixNetService._shuffle_and_reencrypt` for one node; `perm` is the value
of the secretly shuffled index list, `proofRand`/`reencRand` the sampled
proof strings. -/
def shuffleAndReencrypt (ballots : List EncryptedBallot) (node : MixNode)
    (perm : List Nat) (newRand : Nat → Bytes) (proofRand reencRand : Bytes)
    (ts : Nat) : Option (List EncryptedBallot × ShuffleProof) := do
  let inputHash := hashBallotList ballots
  let shuffled ← reencryptAll ballots node newRand 0 perm
  let outputHash := hashBallotList shuffled
  some (shuffled,
    { proof := proofRand
      permutationCommitment := sha256Hex (jsonNatList perm)
      reEncryptionProof := reencRand
      inputHash := inputHash
      outputHash := outputHash
      nodeId := node.nodeId
      timestamp := ts })

/-- Randomness consumed by a cascade run: per-stage permutation, per-ballot
re-encryption randomness, proof strings, timestamps, and per-node share
values. -/
structure MixRand where
  perms : Nat → List Nat
  newRands : Nat → Nat → Bytes
  proofRands : Nat → Bytes
  reencRands : Nat → Bytes
  tss : Nat → Nat
  shareRands : Nat → Bytes
  shareProofRands : Nat → Bytes
  processingTime : Nat

/-- The sequential cascade of `mix_ballots` over the node list. -/
def cascadeAux (R : MixRand) : List MixNode → Nat → List EncryptedBallot →
    Option (List EncryptedBallot × List ShuffleProof)
  | [], _, cur => some (cur, [])
  | node :: rest, i, cur => do
    let (shuffled, proof) ← shuffleAndReencrypt cur node (R.perms i) (R.newRands i)
      (R.proofRands i) (R.reencRands i) (R.tss i)
    let (fin, proofs) ← cascadeAux R rest (i + 1) shuffled
    some (fin, proof :: proofs)

/-- `MixNetService._generate_decryption_shares`. -/
def generateDecryptionShares (nodes : List MixNode) (R : MixRand) : List DecShare :=
  nodes.mapIdx (fun i n =>
    { nodeId := n.nodeId, share := R.shareRands i, shareProof := R.shareProofRands i })

/-- `MixNetService._prove_ballot_conservation`. -/
def proveBallotConservation (inputB outputB : List EncryptedBallot) : Bytes :=
  LBRACE ++ jKey "input_count" ++ natToStr inputB.length
    ++ strBytes ", " ++ jKey "output_count" ++ natToStr outputB.length
    ++ strBytes ", " ++ jKey "input_ids_hash"
    ++ jStr (sha256Hex (jsonStrList (sortBytesList (inputB.map (·.ballotId)))))
    ++ strBytes ", " ++ jKey "output_ids_hash"
    ++ jStr (sha256Hex (jsonStrList (sortBytesList (outputB.map (·.ballotId)))))
    ++ RBRACE

/-- `MixNetService.mix_ballots`: the full cascade. -/
def mixBallots (svc : MixNetService) (ballots : List EncryptedBallot) (R : MixRand) :
    Option MixnetResult := do
  let (fin, proofs) ← cascadeAux R svc.mixNodes 0 ballots
  some { mixedBallots := fin
         shuffleProofs := proofs
         decryptionShares := generateDecryptionShares svc.mixNodes R
         finalPermutationProof := proveBallotConservation ballots fin
         processingTimeMs := R.processingTime }

/-- `MixNetService._verify_shuffle_proof`: structural non-emptiness only. -/
def verifyShuffleProof (p : ShuffleProof) : Bool :=
  0 < p.proof.length && 0 < p.permutationCommitment.length
    && 0 < p.reEncryptionProof.length

/-- The proof-chain walk of `verify_mixnet_proofs`. -/
def verifyChain : Bytes → List ShuffleProof → Bool
  | _, [] => true
  | cur, p :: rest =>
    if p.inputHash ≠ cur then false
    else if ¬verifyShuffleProof p then false
    else verifyChain p.outputHash rest

/-- `MixNetService.verify_mixnet_proofs`: chain linkage, per-proof structure,
and the final ballot count. -/
def verifyMixnetProofs (result : MixnetResult) (original : List EncryptedBallot) : Bool :=
  verifyChain (hashBallotList original) result.shuffleProofs
    && result.mixedBallots.length == original.length

/-- `ValueError` raised by `threshold_decrypt`. -/
inductive CryptoErr
  | insufficientShares
deriving DecidableEq, Repr

structure DecryptedOut where
  ballotId : Bytes
  decrypted : Bool
  plaintextHash : Bytes
deriving DecidableEq, Repr

/-- `MixNetService._combine_shares`: hash of the concatenated share values. -/
def combineShares (shares : List DecShare) : Bytes :=
  sha256Hex (shares.foldl (fun acc s => acc ++ s.share) [])

/-- `MixNetService.threshold_decrypt`. -/
def thresholdDecrypt (svc : MixNetService) (eb : EncryptedBallot)
    (shares : List DecShare) : Except CryptoErr DecryptedOut :=
  if shares.length < svc.threshold then
    .error .insufficientShares
  else
    let combined := combineShares (shares.take svc.threshold)
    .ok { ballotId := eb.ballotId
          decrypted := true
          plaintextHash := sha256Hex (eb.c2 ++ combined) }

/-! ## `services/zk_proof.py` -/

/-- The simulated Groth16 payload (`proof_data` dict; the stored `proof`
field is its base64-encoded JSON, decoded back by the verifier). -/
structure ZKProofData where
  piA : List Bytes
  piB : List (List Bytes)
  piC : List Bytes
  typeTag : Bytes
  curve : Bytes
  protocol : Bytes
  algorithm : Bytes
  circuitVersion : Bytes
deriving DecidableEq, Repr

structure ZKProof where
  proofData : ZKProofData
  publicInputs : List Bytes
  createdAt : Nat
  proofType : Bytes
deriving DecidableEq, Repr

inductive ZkError
  | invalidMerkleProof
deriving DecidableEq, Repr

/-- `ZKProofService._verify_merkle_path`: fold the path upward, hashing each
sorted pair. -/
def verifyMerklePath (leaf : Bytes) (path : List Bytes) (root : Bytes) : Bool :=
  (path.foldl (fun cur sib =>
    if bytesLe cur sib then sha256Hex (cur ++ sib) else sha256Hex (sib ++ cur)) leaf)
    == root

/-- Sampled curve points and clock for one proof generation. -/
structure ZkRand where
  piA : List Bytes
  piB : List (List Bytes)
  piC : List Bytes
  ts : Nat

/-- `ZKProofService.generate_ballot_validity_proof`. -/
def generateBallotValidityProof (voterHash allowlistRoot : Bytes)
    (merklePath : List Bytes) (ballotSelections : List Selection)
    (electionId : Bytes) (r : ZkRand) : Except ZkError ZKProof :=
  let ballotCommitment := sha256Hex (dumpSelections ballotSelections)
  if ¬verifyMerklePath voterHash merklePath allowlistRoot then
    .error .invalidMerkleProof
  else
    .ok { proofData :=
          { piA := r.piA
            piB := r.piB
            piC := r.piC
            typeTag := strBytes "groth16"
            curve := strBytes "bn128"
            protocol := strBytes "ObserverNet-v1"
            algorithm := strBytes "Groth16-ZK-SNARK"
            circuitVersion := strBytes "ballot_validity_v1" }
          publicInputs := [allowlistRoot, ballotCommitment, sha256Hex electionId]
          createdAt := r.ts
          proofType := strBytes "ballot_validity" }

/-- `ZKProofService.verify_ballot_validity_proof`: the public inputs must
equal `[allowlistRoot, ballotCommitment, H(electionId)]`, and the decoded
payload must carry the `pi_a`/`pi_b`/`pi_c` fields (always present in this
record model) with `type = "groth16"` and `curve = "bn128"`. -/
def verifyBallotValidityProof (proof : ZKProof)
    (allowlistRoot ballotCommitment electionId : Bytes) : Bool :=
  let expected := [allowlistRoot, ballotCommitment, sha256Hex electionId]
  if proof.publicInputs ≠ expected then false
  else
    proof.proofData.typeTag == strBytes "groth16"
      && proof.proofData.curve == strBytes "bn128"

/-! ## Concrete scenario data (used by counterexamples and witnesses) -/

def isOkB {ε α : Type} : Except ε α → Bool
  | .ok _ => true
  | .error _ => false

instance {ε α : Type} [DecidableEq ε] [DecidableEq α] : DecidableEq (Except ε α) :=
  fun x y =>
    match x, y with
    | .ok a, .ok b =>
      if h : a = b then isTrue (h ▸ rfl) else isFalse (fun hc => h (Except.ok.inj hc))
    | .ok _, .error _ => isFalse (fun hc => Except.noConfusion hc)
    | .error _, .ok _ => isFalse (fun hc => Except.noConfusion hc)
    | .error e, .error f =>
      if h : e = f then isTrue (h ▸ rfl)
      else isFalse (fun hc => h (Except.error.inj hc))

/-- A concrete cipher instance (any member of `AesGcm` works in the
round-trip theorems; this one lets witnesses evaluate). -/
def dummyCipher : AesGcm where
  derive := fun _ _ => []
  keystream := fun _ _ _ => 0
  tag := fun _ _ _ => List.replicate 16 0
  keystream_lt := fun _ _ _ => by
    show (0 : Nat) < 256
    omega
  tag_len := fun _ _ _ => by
    show (List.replicate 16 0).length = 16
    simp
  tag_lt := fun _ _ _ x hx => by
    rw [List.eq_of_mem_replicate (show x ∈ List.replicate 16 0 from hx)]
    omega

def witElection : Election :=
  { id := strBytes "e1", status := .ACTIVE, votingStartAt := 0, votingEndAt := 100,
    allowVoteChange := false, voteChangeDeadline := none }

def witVoter : Voter :=
  { id := strBytes "voter1", electionId := strBytes "e1", voterHash := strBytes "vh1",
    status := .VERIFIED, updatedAt := 0 }

def witSecret : Bytes := strBytes "f00df00d"

def witToken : VoteToken :=
  { id := strBytes "vt_0", electionId := strBytes "e1", voterId := strBytes "voter1",
    tokenHash := hashVoteToken witSecret, status := .ISSUED, expiresAt := 90,
    usedAt := none, version := 1, previousTokenId := none }

def witContest : Contest := { id := strBytes "c1", electionId := strBytes "e1" }

def witSel : Selection :=
  { contestId := strBytes "c1", optionId := none, rank := none, score := none,
    writeIn := none }

def witDb : Db :=
  { elections := [witElection], voters := [witVoter], tokens := [witToken],
    ballots := [], votes := [], audits := [], contests := [witContest], options := [] }

def witRand : SubmitRand :=
  { now := 50, saltRand := strBytes "salt", ballotIdSuffix := strBytes "bid",
    alIdSuffix := strBytes "aid", voteIdSuffix := fun _ => strBytes "vid",
    ivRand := strBytes "iviv", confirmNow := 60 }

def witSubmit : Except ApiError BallotResponse × List Db :=
  submitBallot dummyCipher (strBytes "mk") witDb (strBytes "e1") witSecret [witSel]
    .WEB witRand none

def witResp : BallotResponse :=
  match witSubmit.1 with
  | .ok resp => resp
  | .error _ => { commitmentHash := [], receiptCode := [], submittedAt := 0 }

def auditDefault : AuditLog :=
  { id := [], userId := none, electionId := [], orgId := none, action := [],
    resource := [], resourceId := [], detailsJson := [], ipAddress := none,
    hash := [], previousHash := none, createdAt := 0 }

def witTokDb : Db :=
  { elections := [witElection], voters := [witVoter], tokens := [], ballots := [],
    votes := [], audits := [], contests := [], options := [] }

def witTokRand : TokenRand :=
  { now := 50, rawToken := strBytes "rawsecretbytes", vtIdSuffix := strBytes "vt1",
    alIdSuffix := strBytes "al1" }

def witTokRun : Except ApiError TokenResponse × List Db :=
  requestVoteToken witTokDb (strBytes "e1") (strBytes "vh1") witTokRand

def witTokAudit : AuditLog := ((witTokRun.2.headD witTokDb).audits.headD auditDefault)

def c6Svc : MixNetService :=
  { threshold := 2, totalNodes := 5, mixNodes := [], masterPublicKey := none }

def c6Ballot : EncryptedBallot :=
  { ballotId := strBytes "b1", c1 := strBytes "c1hash", c2 := strBytes "c2hash",
    proofOfKnowledge := strBytes "pok", layer := 0 }

def c6GoodShare : DecShare :=
  { nodeId := strBytes "node1", share := strBytes "aa11bb22", shareProof := strBytes "p1" }

/-- A malformed share: empty share value and empty proof. -/
def c6MalformedShare : DecShare :=
  { nodeId := strBytes "node2", share := [], shareProof := [] }

def c5Node : MixNode :=
  { nodeId := strBytes "mix_node_0_ab", publicKey := strBytes "pk0",
    endpoint := strBytes "ep0", nodeStatus := strBytes "active" }

def c5Svc : MixNetService :=
  { threshold := 3, totalNodes := 5, mixNodes := [c5Node],
    masterPublicKey := some (strBytes "mpk") }

def c5B1 : EncryptedBallot :=
  { ballotId := strBytes "b1", c1 := strBytes "c1a", c2 := strBytes "c2a",
    proofOfKnowledge := strBytes "pok1", layer := 0 }

def c5B2 : EncryptedBallot :=
  { ballotId := strBytes "b2", c1 := strBytes "c1b", c2 := strBytes "c2b",
    proofOfKnowledge := strBytes "pok2", layer := 0 }

def c5Rand : MixRand :=
  { perms := fun _ => [0, 1], newRands := fun _ _ => strBytes "rr",
    proofRands := fun _ => strBytes "proofproof", reencRands := fun _ => strBytes "reenc",
    tss := fun _ => 7, shareRands := fun _ => strBytes "sh",
    shareProofRands := fun _ => strBytes "shp", processingTime := 5 }

def c5EmptyResult : MixnetResult :=
  { mixedBallots := [], shuffleProofs := [], decryptionShares := [],
    finalPermutationProof := [], processingTimeMs := 0 }

def c5Result : MixnetResult := (mixBallots c5Svc [c5B1, c5B2] c5Rand).getD c5EmptyResult

/-- The honest result with its mixed ballots tampered: the first mixed
ballot duplicated and the second dropped (ballot count preserved). -/
def c5Tampered : MixnetResult :=
  { c5Result with
    mixedBallots := [c5Result.mixedBallots.headD c5B1, c5Result.mixedBallots.headD c5B1] }

/-- C9 witness data: with an empty Merkle path the leaf is the root. -/
def c9Rand : ZkRand :=
  { piA := [strBytes "x1", strBytes "y1"]
    piB := [[strBytes "x2", strBytes "y2"], [strBytes "x3", strBytes "y3"]]
    piC := [strBytes "x4", strBytes "y4"]
    ts := 9 }

def c7Election : Election :=
  { id := strBytes "e1", status := .ACTIVE, votingStartAt := 0, votingEndAt := 100,
    allowVoteChange := false, voteChangeDeadline := none }

def c7Voter : Voter :=
  { id := strBytes "voter1", electionId := strBytes "e1", voterHash := strBytes "vh1",
    status := .VOTED, updatedAt := 10 }

def c7Db : Db :=
  { elections := [c7Election], voters := [c7Voter], tokens := [], ballots := [],
    votes := [], audits := [], contests := [], options := [] }

/-- The token-row update staged by a successful submission. -/
def usedUpdate (vt : VoteToken) (now : Nat) (t : VoteToken) : VoteToken :=
  if t.id == vt.id then { t with status := VoteTokenStatus.USED, usedAt := some now }
  else t

/-- The voter-row update staged by a successful submission. -/
def votedUpdate (voter : Voter) (now : Nat) (v : Voter) : Voter :=
  if v.id == voter.id then { v with status := VoterStatus.VOTED, updatedAt := now }
  else v

/-- The post-anchor update applied to each ballot row. -/
def confirmUpdate (ballotId : Bytes) (fr : FabricResult) (cNow : Nat) (b : Ballot) :
    Ballot :=
  if b.id == ballotId then
    { b with
      fabricTxId := some fr.txId
      fabricBlockNum := some fr.blockNumber
      fabricTimestamp := fr.timestamp
      status := BallotStatus.CONFIRMED
      confirmedAt := some cNow }
  else b

/-- The three stored facts a committed submission snapshot must show:
a ballot for the credential hash, the credential consumed (with its voter
VOTED), and no matching credential left unconsumed. -/
def submittedInvariant (d : Db) (th eid : Bytes) : Prop :=
  (∃ b ∈ d.ballots, b.tokenHash = th ∧ b.electionId = eid)
  ∧ (∃ t ∈ d.tokens, t.tokenHash = th ∧ t.electionId = eid
      ∧ t.status = VoteTokenStatus.USED
      ∧ ∃ v ∈ d.voters, v.id = t.voterId ∧ v.status = VoterStatus.VOTED)
  ∧ (∀ t ∈ d.tokens, t.tokenHash = th → t.electionId = eid
      → t.status = VoteTokenStatus.USED)

/-! ## Theorems -/

/-- FIPS 180-4 test vector pinning the SHA-256 embedding. -/
theorem sha256_test_vector : sha256Hex (strBytes "abc")
    = strBytes "ba7816bf8f01cfea414140de5dae2223b00361a396177a9cb410ff61f20015ad" := by
  decide

theorem b64CharInv_b64Char : ∀ n, n < 64 → b64CharInv (b64Char n) = n := by decide

theorem b64Char_ne_pad : ∀ n, n < 64 → b64Char n ≠ 61 := by decide

theorem b64_roundtrip : ∀ b : Bytes, (∀ x ∈ b, x < 256) → b64Decode (b64Encode b) = b
  | [], _ => rfl
  | [a], h => by
    have ha : a < 256 := h a (by simp)
    simp only [b64Encode, b64Decode]
    simp only [reduceIte]
    rw [b64CharInv_b64Char (a / 4) (by omega), b64CharInv_b64Char (a % 4 * 16) (by omega)]
    simp only [List.cons.injEq, and_true]
    omega
  | [a, b], h => by
    have ha : a < 256 := h a (by simp)
    have hb : b < 256 := h b (by simp)
    have hne := b64Char_ne_pad (b % 16 * 4) (by omega)
    simp only [b64Encode, b64Decode, if_neg hne]
    simp only [reduceIte]
    rw [b64CharInv_b64Char (a / 4) (by omega),
      b64CharInv_b64Char (a % 4 * 16 + b / 16) (by omega),
      b64CharInv_b64Char (b % 16 * 4) (by omega)]
    simp only [List.cons.injEq, and_true]
    omega
  | a :: b :: c :: rest, h => by
    have ha : a < 256 := h a (by simp)
    have hb : b < 256 := h b (by simp)
    have hc : c < 256 := h c (by simp)
    have hrec := b64_roundtrip rest
      (fun x hx => h x (List.mem_cons_of_mem _ (List.mem_cons_of_mem _
        (List.mem_cons_of_mem _ hx))))
    have hne1 := b64Char_ne_pad (b % 16 * 4 + c / 64) (by omega)
    have hne2 := b64Char_ne_pad (c % 64) (by omega)
    simp only [b64Encode, b64Decode, if_neg hne1, if_neg hne2]
    rw [b64CharInv_b64Char (a / 4) (by omega),
      b64CharInv_b64Char (a % 4 * 16 + b / 16) (by omega),
      b64CharInv_b64Char (b % 16 * 4 + c / 64) (by omega),
      b64CharInv_b64Char (c % 64) (by omega), hrec]
    simp only [List.cons.injEq, and_true]
    exact ⟨by omega, by omega, by omega⟩

/-! ### Round-trip lemmas for the serializer/parser pair -/

theorem isPrefixOf_append (tok rest : Bytes) : tok.isPrefixOf (tok ++ rest) = true := by
  induction tok with
  | nil => simp [List.isPrefixOf]
  | cons c cs ih => simp [List.isPrefixOf, ih]

theorem expects_append (tok rest : Bytes) : expects tok (tok ++ rest) = some rest := by
  simp [expects, isPrefixOf_append, List.drop_left]

theorem takeUntilQuote_append (s rest : Bytes) (h : ∀ c ∈ s, c ≠ QUOTE) :
    takeUntilQuote (s ++ QUOTE :: rest) = some (s, rest) := by
  induction s with
  | nil => simp [takeUntilQuote]
  | cons c cs ih =>
    have hc : c ≠ QUOTE := h c (by simp)
    simp only [List.cons_append, takeUntilQuote, if_neg hc, List.append_eq]
    rw [ih (fun x hx => h x (by simp [hx]))]
    rfl

theorem parseQuoted_append (s rest : Bytes) (h : ∀ c ∈ s, c ≠ QUOTE) :
    parseQuoted (jStr s ++ rest) = some (s, rest) := by
  have he : jStr s ++ rest = QUOTE :: (s ++ QUOTE :: rest) := by
    simp [jStr]
  rw [he]
  simp only [parseQuoted, if_pos rfl]
  exact takeUntilQuote_append s rest h

theorem natToStrAux_spec : ∀ fuel n, n < fuel →
    (∀ c ∈ natToStrAux fuel n, 48 ≤ c ∧ c ≤ 57) ∧ natToStrAux fuel n ≠ [] ∧
      valNat (natToStrAux fuel n) = n := by
  intro fuel
  induction fuel with
  | zero => intro n hn; omega
  | succ fuel ih =>
    intro n hn
    by_cases h10 : n < 10
    · refine ⟨?_, ?_, ?_⟩
      · intro c hc
        simp [natToStrAux, if_pos h10] at hc
        omega
      · simp [natToStrAux, if_pos h10]
      · simp [natToStrAux, if_pos h10, valNat]
    · have hdiv : n / 10 < fuel := by omega
      obtain ⟨hd, hne, hval⟩ := ih (n / 10) hdiv
      simp only [natToStrAux, if_neg h10]
      refine ⟨?_, by simp, ?_⟩
      · intro c hc
        rcases List.mem_append.mp hc with h1 | h2
        · exact hd c h1
        · simp at h2; omega
      · simp only [valNat, List.foldl_append] at hval ⊢
        simp only [List.foldl_cons, List.foldl_nil]
        rw [hval]
        omega

theorem natToStr_spec (n : Nat) :
    (∀ c ∈ natToStr n, 48 ≤ c ∧ c ≤ 57) ∧ natToStr n ≠ [] ∧ valNat (natToStr n) = n :=
  natToStrAux_spec (n + 1) n (by omega)

theorem takeDigits_append (ds rest : Bytes) (hds : ∀ c ∈ ds, 48 ≤ c ∧ c ≤ 57)
    (hrest : ∀ c, rest.head? = some c → ¬(48 ≤ c ∧ c ≤ 57)) :
    takeDigits (ds ++ rest) = (ds, rest) := by
  induction ds with
  | nil =>
    cases rest with
    | nil => rfl
    | cons c r =>
      have hd : isDigit c = false := by
        simp only [isDigit, decide_eq_false_iff_not]
        exact hrest c rfl
      simp [takeDigits, hd]
  | cons d dsa ih =>
    have hdd : isDigit d = true := by
      simp only [isDigit, decide_eq_true_eq]
      exact hds d (by simp)
    simp [takeDigits, hdd, ih (fun c hc => hds c (by simp [hc]))]

theorem parseNat_append (n : Nat) (rest : Bytes)
    (hrest : ∀ c, rest.head? = some c → ¬(48 ≤ c ∧ c ≤ 57)) :
    parseNat (natToStr n ++ rest) = some (n, rest) := by
  obtain ⟨hd, hne, hval⟩ := natToStr_spec n
  simp [parseNat, takeDigits_append _ _ hd hrest, hne, hval]

theorem parseInt_append (i : Int) (rest : Bytes)
    (hrest : ∀ c, rest.head? = some c → ¬(48 ≤ c ∧ c ≤ 57)) :
    parseInt (intToStr i ++ rest) = some (i, rest) := by
  have hmain := parseNat_append i.natAbs rest hrest
  by_cases hneg : i < 0
  · simp only [intToStr, if_pos hneg, List.cons_append, parseInt]
    simp only [if_true]
    simp only [hmain, Option.map_some']
    have hcast : -((i.natAbs : Nat) : Int) = i := by omega
    rw [hcast]
  · obtain ⟨hd, hne, hval⟩ := natToStr_spec i.natAbs
    simp only [intToStr, if_neg hneg]
    cases hcons : natToStr i.natAbs with
    | nil => exact absurd hcons hne
    | cons c cs =>
      have hc : 48 ≤ c ∧ c ≤ 57 := hd c (by rw [hcons]; simp)
      have h45 : c ≠ 45 := by omega
      rw [hcons] at hmain
      simp only [List.cons_append, parseInt, if_neg h45]
      simp only [List.cons_append] at hmain
      simp only [hmain, Option.map_some']
      have hcast : ((i.natAbs : Nat) : Int) = i := by omega
      rw [hcast]

theorem strBytes_null_eq : strBytes "null" = [110, 117, 108, 108] := by decide

theorem parseOptStr_append (o : Option Bytes) (rest : Bytes) (h : optStrOk o) :
    parseOptStr (jOptStr o ++ rest) = some (o, rest) := by
  cases o with
  | none =>
    simp only [jOptStr, parseOptStr, expects_append]
  | some s =>
    have hq : ∀ c ∈ s, c ≠ QUOTE := fun c hc => (h c hc).2.2.1
    have hpre : (strBytes "null").isPrefixOf (jStr s ++ rest) = false := by
      rw [strBytes_null_eq]
      simp [jStr, List.isPrefixOf, QUOTE]
    simp only [jOptStr, parseOptStr, expects, hpre, Bool.false_eq_true, if_false,
      parseQuoted_append s rest hq, Option.map_some']

theorem intToStr_head (i : Int) :
    ∃ c cs, intToStr i = c :: cs ∧ (c = 45 ∨ (48 ≤ c ∧ c ≤ 57)) := by
  obtain ⟨hd, hne, _⟩ := natToStr_spec i.natAbs
  by_cases hneg : i < 0
  · exact ⟨45, natToStr i.natAbs, by simp [intToStr, if_pos hneg], Or.inl rfl⟩
  · cases hcons : natToStr i.natAbs with
    | nil => exact absurd hcons hne
    | cons c cs =>
      refine ⟨c, cs, by simp [intToStr, if_neg hneg, hcons], Or.inr ?_⟩
      exact hd c (by rw [hcons]; simp)

theorem parseOptInt_append (o : Option Int) (rest : Bytes)
    (hrest : ∀ c, rest.head? = some c → ¬(48 ≤ c ∧ c ≤ 57)) :
    parseOptInt (jOptInt o ++ rest) = some (o, rest) := by
  cases o with
  | none =>
    simp only [jOptInt, parseOptInt, expects_append]
  | some i =>
    obtain ⟨c, cs, hcons, hc⟩ := intToStr_head i
    have h110 : (110 == c) = false := by
      simp only [beq_eq_false_iff_ne, ne_eq]
      omega
    have hpre : (strBytes "null").isPrefixOf (intToStr i ++ rest) = false := by
      rw [strBytes_null_eq, hcons]
      simp only [List.cons_append, List.isPrefixOf, h110, Bool.false_and]
    simp only [jOptInt, parseOptInt, expects, hpre, Bool.false_eq_true, if_false,
      parseInt_append i rest hrest, Option.map_some']

theorem selTok4_eq : selTok4 = [44, 32, 34, 115, 99, 111, 114, 101, 34, 58, 32] := by decide

theorem selTok5_eq :
    selTok5 = [44, 32, 34, 119, 114, 105, 116, 101, 73, 110, 34, 58, 32] := by decide

theorem parseSelection_append (s : Selection) (rest : Bytes) (hok : selOk s) :
    parseSelection (dumpSelection s ++ rest) = some (s, rest) := by
  obtain ⟨h1, h2, h3⟩ := hok
  have hq1 : ∀ c ∈ s.contestId, c ≠ QUOTE := fun c hc => (h1 c hc).2.2.1
  have hd4 : ∀ (X : Bytes) c, (selTok4 ++ X).head? = some c → ¬(48 ≤ c ∧ c ≤ 57) := by
    intro X c hc
    rw [selTok4_eq] at hc
    simp at hc
    omega
  have hd5 : ∀ (X : Bytes) c, (selTok5 ++ X).head? = some c → ¬(48 ≤ c ∧ c ≤ 57) := by
    intro X c hc
    rw [selTok5_eq] at hc
    simp at hc
    omega
  have he : dumpSelection s ++ rest
      = selTok1 ++ (jStr s.contestId ++ (selTok2 ++ (jOptStr s.optionId ++ (selTok3
        ++ (jOptInt s.rank ++ (selTok4 ++ (jOptInt s.score ++ (selTok5
        ++ (jOptStr s.writeIn ++ (RBRACE ++ rest)))))))))) := by
    simp [dumpSelection, List.append_assoc]
  rw [he]
  simp only [parseSelection]
  rw [expects_append]
  simp only [Option.bind_eq_bind', Option.some_bind]
  rw [parseQuoted_append _ _ hq1]
  simp only [Option.bind_eq_bind', Option.some_bind]
  rw [expects_append]
  simp only [Option.bind_eq_bind', Option.some_bind]
  rw [parseOptStr_append _ _ h2]
  simp only [Option.bind_eq_bind', Option.some_bind]
  rw [expects_append]
  simp only [Option.bind_eq_bind', Option.some_bind]
  rw [parseOptInt_append _ _ (hd4 _)]
  simp only [Option.bind_eq_bind', Option.some_bind]
  rw [expects_append]
  simp only [Option.bind_eq_bind', Option.some_bind]
  rw [parseOptInt_append _ _ (hd5 _)]
  simp only [Option.bind_eq_bind', Option.some_bind]
  rw [expects_append]
  simp only [Option.bind_eq_bind', Option.some_bind]
  rw [parseOptStr_append _ _ h3]
  simp only [Option.bind_eq_bind', Option.some_bind]
  rw [expects_append]
  simp only [Option.bind_eq_bind', Option.some_bind]

theorem selTok1_eq :
    selTok1 = [123, 34, 99, 111, 110, 116, 101, 115, 116, 73, 100, 34, 58, 32] := by decide

theorem dumpSelection_head (s : Selection) : ∃ t, dumpSelection s = 123 :: t := by
  unfold dumpSelection
  rw [selTok1_eq]
  exact ⟨_, rfl⟩

theorem dumpSelection_len (s : Selection) : 1 ≤ (dumpSelection s).length := by
  obtain ⟨t, ht⟩ := dumpSelection_head s
  rw [ht]
  simp

theorem joinSep_dump_len : ∀ l : List Selection,
    l.length ≤ (joinSep (strBytes ", ") (l.map dumpSelection)).length
  | [] => by simp
  | [s] => by
    simpa [joinSep] using dumpSelection_len s
  | s :: s2 :: ss => by
    have hrec := joinSep_dump_len (s2 :: ss)
    have hd := dumpSelection_len s
    simp only [List.map_cons, joinSep, List.length_append, List.length_cons] at hrec ⊢
    omega

theorem parseSelectionsAux_append :
    ∀ (l : List Selection) (fuel : Nat) (rest : Bytes), l ≠ [] →
      (∀ s ∈ l, selOk s) → l.length ≤ fuel →
      ¬((strBytes ", ").isPrefixOf rest = true) →
      parseSelectionsAux fuel (joinSep (strBytes ", ") (l.map dumpSelection) ++ rest)
        = some (l, rest)
  | [], _, _, hne, _, _, _ => absurd rfl hne
  | s :: ss, 0, _, _, _, hfuel, _ => by simp at hfuel
  | [s], fuel + 1, rest, _, hok, _, hrest => by
    simp only [List.map_cons, List.map_nil, joinSep, parseSelectionsAux]
    rw [parseSelection_append s rest (hok s (by simp))]
    simp only [Option.bind_eq_bind', Option.some_bind]
    rw [if_neg hrest]
  | s :: s2 :: ss, fuel + 1, rest, _, hok, hfuel, hrest => by
    have hrec := parseSelectionsAux_append (s2 :: ss) fuel rest (by simp)
      (fun x hx => hok x (List.mem_cons_of_mem _ hx)) (by simp at hfuel ⊢; omega) hrest
    have hassoc : joinSep (strBytes ", ") ((s :: s2 :: ss).map dumpSelection) ++ rest
        = dumpSelection s ++ (strBytes ", "
            ++ (joinSep (strBytes ", ") ((s2 :: ss).map dumpSelection) ++ rest)) := by
      simp [joinSep, List.append_assoc]
    rw [hassoc]
    simp only [parseSelectionsAux]
    rw [parseSelection_append s _ (hok s (by simp))]
    simp only [Option.bind_eq_bind', Option.some_bind]
    rw [if_pos (isPrefixOf_append _ _)]
    rw [show ∀ X : Bytes, (strBytes ", " ++ X).drop 2 = X from fun X => rfl]
    rw [hrec]
    simp only [Option.bind_eq_bind', Option.some_bind]

theorem joinSep_dump_cons (x : Selection) (xs : List Selection) :
    ∃ u, joinSep (strBytes ", ") ((x :: xs).map dumpSelection) = dumpSelection x ++ u := by
  cases xs with
  | nil => exact ⟨[], by simp [joinSep]⟩
  | cons y ys =>
    exact ⟨strBytes ", " ++ joinSep (strBytes ", ") ((y :: ys).map dumpSelection),
      by simp [joinSep, List.append_assoc]⟩

/-- `json.loads (json.dumps selections)` recovers the selections whenever all
string fields consist of printable ASCII without quote or backslash. -/
theorem loadsSelections_dumpSelections (l : List Selection) (h : ∀ s ∈ l, selOk s) :
    loadsSelections (dumpSelections l) = some l := by
  cases l with
  | nil => decide
  | cons x xs =>
    unfold loadsSelections dumpSelections
    rw [show strBytes "[" ++ joinSep (strBytes ", ") ((x :: xs).map dumpSelection)
          ++ strBytes "]"
        = strBytes "[" ++ (joinSep (strBytes ", ") ((x :: xs).map dumpSelection)
          ++ strBytes "]") from by simp [List.append_assoc]]
    simp only [expects_append]
    obtain ⟨u, hu⟩ := joinSep_dump_cons x xs
    obtain ⟨t, ht⟩ := dumpSelection_head x
    have hne : joinSep (strBytes ", ") ((x :: xs).map dumpSelection) ++ strBytes "]"
        ≠ strBytes "]" := by
      rw [hu, ht, show strBytes "]" = [93] from by decide]
      intro heq
      simp at heq
    rw [if_neg hne]
    have hlen : (x :: xs).length
        ≤ (joinSep (strBytes ", ") ((x :: xs).map dumpSelection) ++ strBytes "]").length := by
      have := joinSep_dump_len (x :: xs)
      simp only [List.length_append]
      omega
    rw [parseSelectionsAux_append (x :: xs) _ (strBytes "]") (by simp) h hlen (by decide)]
    simp only [Option.bind_eq_bind', Option.some_bind]
    rw [show expects (strBytes "]") (strBytes "]") = some [] from by decide]
    simp only [Option.some_bind]
    simp

theorem ctrXor_invol (ks : Nat → Nat) :
    ∀ (pt : Bytes) (i : Nat), ctrXor ks i (ctrXor ks i pt) = pt
  | [], _ => rfl
  | p :: rest, i => by
    simp only [ctrXor, ctrXor_invol ks rest (i + 1), List.cons.injEq, and_true]
    rw [Nat.xor_assoc, Nat.xor_self, Nat.xor_zero]

theorem ctrXor_lt (ks : Nat → Nat) (hks : ∀ i, ks i < 256) :
    ∀ (pt : Bytes) (i : Nat), (∀ x ∈ pt, x < 256) → ∀ x ∈ ctrXor ks i pt, x < 256
  | [], _, _ => by simp [ctrXor]
  | p :: rest, i, h => by
    intro x hx
    simp only [ctrXor, List.mem_cons] at hx
    rcases hx with hx | hx
    · subst hx
      have h1 : p < 2 ^ 8 := by simpa using h p (by simp)
      have h2 : ks i < 2 ^ 8 := by simpa using hks i
      simpa using Nat.xor_lt_two_pow h1 h2
    · exact ctrXor_lt ks hks rest (i + 1) (fun y hy => h y (by simp [hy])) x hx

theorem ctrXor_length (ks : Nat → Nat) :
    ∀ (pt : Bytes) (i : Nat), (ctrXor ks i pt).length = pt.length
  | [], _ => rfl
  | p :: rest, i => by
    simp [ctrXor, ctrXor_length ks rest (i + 1)]

/-! ### Serialized selections are printable ASCII -/

theorem mem_joinSep {c : Nat} (sep : Bytes) :
    ∀ parts : List Bytes, c ∈ joinSep sep parts →
      c ∈ sep ∨ ∃ p ∈ parts, c ∈ p
  | [], h => by simp [joinSep] at h
  | [x], h => by
    simp only [joinSep] at h
    exact Or.inr ⟨x, by simp, h⟩
  | x :: y :: ys, h => by
    simp only [joinSep, List.mem_append] at h
    rcases h with (h | h) | h
    · exact Or.inr ⟨x, by simp, h⟩
    · exact Or.inl h
    · rcases mem_joinSep sep (y :: ys) h with h | ⟨p, hp, hcp⟩
      · exact Or.inl h
      · exact Or.inr ⟨p, by simp [List.mem_cons] at hp ⊢; tauto, hcp⟩

theorem natToStr_le (n : Nat) : ∀ c ∈ natToStr n, c ≤ 126 := by
  intro c hc
  have := (natToStr_spec n).1 c hc
  omega

theorem jOptStr_le (o : Option Bytes) (h : optStrOk o) : ∀ c ∈ jOptStr o, c ≤ 126 := by
  cases o with
  | none =>
    rw [show jOptStr none = strBytes "null" from rfl, strBytes_null_eq]
    intro c hc
    simp at hc
    omega
  | some s =>
    intro c hc
    simp only [jOptStr, jStr, QUOTE, List.mem_cons, List.mem_append,
      List.mem_singleton] at hc
    have : c = 34 ∨ c ∈ s := by tauto
    rcases this with hc' | hc'
    · omega
    · have := h c hc'
      omega

theorem jOptInt_le (o : Option Int) : ∀ c ∈ jOptInt o, c ≤ 126 := by
  cases o with
  | none =>
    rw [show jOptInt none = strBytes "null" from rfl, strBytes_null_eq]
    intro c hc
    simp at hc
    omega
  | some i =>
    intro c hc
    simp only [jOptInt, intToStr] at hc
    by_cases hneg : i < 0
    · rw [if_pos hneg] at hc
      rcases List.mem_cons.mp hc with hc | hc
      · omega
      · exact natToStr_le _ c hc
    · rw [if_neg hneg] at hc
      exact natToStr_le _ c hc

theorem dumpSelection_le (s : Selection) (hok : selOk s) :
    ∀ c ∈ dumpSelection s, c ≤ 126 := by
  obtain ⟨h1, h2, h3⟩ := hok
  intro c hc
  simp only [dumpSelection, List.mem_append] at hc
  have htok1 : ∀ c ∈ selTok1, c ≤ 126 := by decide
  have htok2 : ∀ c ∈ selTok2, c ≤ 126 := by decide
  have htok3 : ∀ c ∈ selTok3, c ≤ 126 := by decide
  have htok4 : ∀ c ∈ selTok4, c ≤ 126 := by decide
  have htok5 : ∀ c ∈ selTok5, c ≤ 126 := by decide
  have hbr : ∀ c ∈ RBRACE, c ≤ 126 := by decide
  have hcid : ∀ c ∈ jStr s.contestId, c ≤ 126 := by
    intro c hc
    simp only [jStr, QUOTE, List.mem_cons, List.mem_append, List.mem_singleton] at hc
    have hsplit : c = 34 ∨ c ∈ s.contestId := by tauto
    rcases hsplit with hc' | hc'
    · omega
    · have := h1 c hc'
      omega
  rcases hc with ((((((((((hc | hc) | hc) | hc) | hc) | hc) | hc) | hc) | hc) | hc) | hc)
  · exact htok1 c hc
  · exact hcid c hc
  · exact htok2 c hc
  · exact jOptStr_le _ h2 c hc
  · exact htok3 c hc
  · exact jOptInt_le _ c hc
  · exact htok4 c hc
  · exact jOptInt_le _ c hc
  · exact htok5 c hc
  · exact jOptStr_le _ h3 c hc
  · exact hbr c hc

theorem dumpSelections_lt (l : List Selection) (h : ∀ s ∈ l, selOk s) :
    ∀ c ∈ dumpSelections l, c < 256 := by
  intro c hc
  simp only [dumpSelections, List.mem_append] at hc
  rcases hc with (hc | hc) | hc
  · rw [show strBytes "[" = [91] from by decide] at hc
    simp at hc
    omega
  · rcases mem_joinSep _ _ hc with hsep | ⟨p, hp, hcp⟩
    · rw [show strBytes ", " = [44, 32] from by decide] at hsep
      simp at hsep
      omega
    · obtain ⟨s, hs, rfl⟩ := List.mem_map.mp hp
      have := dumpSelection_le s (h s hs) c hcp
      omega
  · rw [show strBytes "]" = [93] from by decide] at hc
    simp at hc
    omega

/-- C3: the receipt code `submit_ballot` returns is the first 16 hex chars of
`SHA-256("{commitment}|{timestamp}|{electionId}")` upper-cased, not the
first 16 hex chars of the commitment itself: a concrete successful
submission returns a receipt that differs from
`commitmentHash[:16].upper()`. -/
theorem claim_C3_receipt_not_commitment_prefix :
    isOkB witSubmit.1 = true
      ∧ witResp.receiptCode ≠ upperBytes (witResp.commitmentHash.take 16) := by
  decide

/-- C4: `request_vote_token` appends exactly one audit entry, but its stored
hash is `SHA-256("token_issued_{id}_{now}")` with `previousHash` unset —
not the chained `H(prior ‖ action ‖ resource ‖ resourceId ‖ timestamp ‖
details)` that `create_audit_chain_hash` (used by `create_audit_entry`)
prescribes: at a concrete genesis state the stored hash differs from the
chained hash. -/
theorem claim_C4_audit_hash_not_chained :
    isOkB witTokRun.1 = true
      ∧ witTokRun.2.length = 1
      ∧ (witTokRun.2.headD witTokDb).audits.length = 1
      ∧ witTokAudit.previousHash = none
      ∧ witTokAudit.hash ≠ createAuditChainHash [] (strBytes "vote.token_issued")
          (strBytes "VoteToken") witTokAudit.resourceId (isoStr 50)
          witTokAudit.detailsJson := by
  decide

/-! ## Claim C6 — threshold decryption -/

/-- C6 (amended): `threshold_decrypt` fails with the insufficient-shares
`ValueError` (spec taxonomy: CryptoError) exactly when fewer than
`threshold` shares are supplied — in particular with k−1 shares — and never
returns a partial result there; with at least k shares (k valid, or k with
a malformed one: shares are not validated) it returns a decryption. -/
theorem claim_C6_threshold_decrypt (svc : MixNetService) (eb : EncryptedBallot)
    (shares : List DecShare) :
    (shares.length < svc.threshold →
      thresholdDecrypt svc eb shares = .error .insufficientShares)
    ∧ (svc.threshold ≤ shares.length →
      thresholdDecrypt svc eb shares
        = .ok { ballotId := eb.ballotId, decrypted := true,
                plaintextHash := sha256Hex
                  (eb.c2 ++ combineShares (shares.take svc.threshold)) }) := by
  constructor
  · intro h
    simp [thresholdDecrypt, h]
  · intro h
    simp [thresholdDecrypt, Nat.not_lt.mpr h]

/-- C6 counterexample: with threshold k = 2, handing `threshold_decrypt`
two shares of which one is malformed does NOT fail — the shares are never
validated and a decryption result is returned. -/
theorem claim_C6_counterexample :
    isOkB (thresholdDecrypt c6Svc c6Ballot [c6GoodShare, c6MalformedShare]) = true := by
  decide

/-! ## Claim C5 — mix-net conservation -/

theorem reencryptAll_ok (ballots : List EncryptedBallot) (node : MixNode)
    (newRand : Nat → Bytes) :
    ∀ (perm : List Nat) (i : Nat), (∀ idx ∈ perm, idx < ballots.length) →
      ∃ out, reencryptAll ballots node newRand i perm = some out
        ∧ out.length = perm.length
  | [], i, _ => ⟨[], rfl, rfl⟩
  | idx :: rest, i, h => by
    have hidx : idx < ballots.length := h idx (by simp)
    obtain ⟨out, hout, hlen⟩ := reencryptAll_ok ballots node newRand rest (i + 1)
      (fun x hx => h x (by simp [hx]))
    have hget : ∃ b, ballots.get? idx = some b := by
      rw [List.get?_eq_get hidx]
      exact ⟨_, rfl⟩
    obtain ⟨b, hb⟩ := hget
    refine ⟨{ b with
        c1 := sha256Hex (b.c1 ++ newRand i)
        c2 := sha256Hex (b.c2 ++ newRand i ++ node.publicKey)
        layer := b.layer + 1 } :: out, ?_, ?_⟩
    · simp only [reencryptAll, hb, Option.bind_eq_bind', Option.some_bind, hout]
    · simp [hlen]

theorem shuffleAndReencrypt_conserves (ballots : List EncryptedBallot)
    (node : MixNode) (perm : List Nat) (newRand : Nat → Bytes)
    (proofRand reencRand : Bytes) (ts : Nat)
    (hperm : perm.Perm (List.range ballots.length)) :
    ∃ out proof,
      shuffleAndReencrypt ballots node perm newRand proofRand reencRand ts
        = some (out, proof)
      ∧ out.length = ballots.length
      ∧ proof.inputHash = hashBallotList ballots
      ∧ proof.outputHash = hashBallotList out
      ∧ proof.proof = proofRand
      ∧ proof.reEncryptionProof = reencRand
      ∧ proof.permutationCommitment = sha256Hex (jsonNatList perm) := by
  have hplen : perm.length = ballots.length := by
    simpa using hperm.length_eq
  have hmem : ∀ idx ∈ perm, idx < ballots.length := by
    intro idx hidx
    have := hperm.mem_iff.mp hidx
    simpa using this
  obtain ⟨out, hout, hlen⟩ := reencryptAll_ok ballots node newRand perm 0 hmem
  have hsr : shuffleAndReencrypt ballots node perm newRand proofRand reencRand ts
      = some (out,
        { proof := proofRand
          permutationCommitment := sha256Hex (jsonNatList perm)
          reEncryptionProof := reencRand
          inputHash := hashBallotList ballots
          outputHash := hashBallotList out
          nodeId := node.nodeId
          timestamp := ts }) := by
    simp only [shuffleAndReencrypt, hout, Option.bind_eq_bind', Option.some_bind]
  exact ⟨out, _, hsr, by omega, rfl, rfl, rfl, rfl, rfl⟩

/-- C5 (amended): every shuffle stage's output has the same length as its
input (the shuffled index list is a permutation of `range len(ballots)`),
and `verify_mixnet_proofs` returns false whenever the mixed ballot count
differs from the original count; a count-preserving substitution of the
mixed ballots is not detected (see the counterexample). -/
theorem claim_C5_conservation (ballots : List EncryptedBallot) (node : MixNode)
    (perm : List Nat) (newRand : Nat → Bytes) (proofRand reencRand : Bytes)
    (ts : Nat) (hperm : perm.Perm (List.range ballots.length)) :
    (∃ out proof,
      shuffleAndReencrypt ballots node perm newRand proofRand reencRand ts
        = some (out, proof) ∧ out.length = ballots.length)
    ∧ ∀ (result : MixnetResult) (original : List EncryptedBallot),
        result.mixedBallots.length ≠ original.length →
        verifyMixnetProofs result original = false := by
  constructor
  · obtain ⟨out, proof, h1, h2, _⟩ :=
      shuffleAndReencrypt_conserves ballots node perm newRand proofRand reencRand ts hperm
    exact ⟨out, proof, h1, h2⟩
  · intro result original hne
    have hbeq : (result.mixedBallots.length == original.length) = false := by
      simpa using hne
    simp [verifyMixnetProofs, hbeq]

/-- C5 counterexample: an honest cascade run verifies, but so does the same
result after duplicating one mixed ballot and removing another — the mixed
ballot set is NOT the conserved set, a ballot was duplicated and one
removed, yet `verify_mixnet_proofs` still returns true: the claim that
VerifyProofs returns false on any added/removed/duplicated ballot is
false. -/
theorem claim_C5_counterexample :
    (mixBallots c5Svc [c5B1, c5B2] c5Rand).isSome = true
    ∧ verifyMixnetProofs c5Result [c5B1, c5B2] = true
    ∧ verifyMixnetProofs c5Tampered [c5B1, c5B2] = true
    ∧ c5Tampered.mixedBallots ≠ c5Result.mixedBallots
    ∧ c5Tampered.mixedBallots.count (c5Result.mixedBallots.headD c5B1) = 2
    ∧ c5Result.mixedBallots.getLastD c5B1 ∉ c5Tampered.mixedBallots := by
  decide

/-! ## Claim C9 — ballot-validity proof public inputs -/

/-- C9: when the Merkle path validates the participant hash under the
allowlist root, proof generation succeeds, the proof's public inputs are
exactly `[allowlistRoot, H(json(selections)), H(electionId)]` in that
order, and verification against the matching root, commitment and election
id returns true. -/
theorem claim_C9_proof_binding (voterHash allowlistRoot : Bytes)
    (merklePath : List Bytes) (sels : List Selection) (eid : Bytes) (r : ZkRand)
    (hm : verifyMerklePath voterHash merklePath allowlistRoot = true) :
    ∃ proof,
      generateBallotValidityProof voterHash allowlistRoot merklePath sels eid r
        = .ok proof
      ∧ proof.publicInputs
          = [allowlistRoot, sha256Hex (dumpSelections sels), sha256Hex eid]
      ∧ verifyBallotValidityProof proof allowlistRoot
          (sha256Hex (dumpSelections sels)) eid = true := by
  have hgen : generateBallotValidityProof voterHash allowlistRoot merklePath sels eid r
      = .ok { proofData :=
                { piA := r.piA, piB := r.piB, piC := r.piC,
                  typeTag := strBytes "groth16", curve := strBytes "bn128",
                  protocol := strBytes "ObserverNet-v1",
                  algorithm := strBytes "Groth16-ZK-SNARK",
                  circuitVersion := strBytes "ballot_validity_v1" },
              publicInputs := [allowlistRoot, sha256Hex (dumpSelections sels),
                sha256Hex eid],
              createdAt := r.ts,
              proofType := strBytes "ballot_validity" } := by
    simp only [generateBallotValidityProof, hm]
    simp
  exact ⟨_, hgen, rfl, by simp [verifyBallotValidityProof]⟩

theorem claim_C9_witness :
    verifyMerklePath (strBytes "leaf") [] (strBytes "leaf") = true
    ∧ ∃ proof,
      generateBallotValidityProof (strBytes "leaf") (strBytes "leaf") [] [witSel]
        (strBytes "e1") c9Rand = .ok proof
      ∧ proof.publicInputs
          = [strBytes "leaf", sha256Hex (dumpSelections [witSel]),
             sha256Hex (strBytes "e1")]
      ∧ verifyBallotValidityProof proof (strBytes "leaf")
          (sha256Hex (dumpSelections [witSel])) (strBytes "e1") = true :=
  ⟨by decide,
    claim_C9_proof_binding (strBytes "leaf") (strBytes "leaf") [] [witSel]
      (strBytes "e1") c9Rand (by decide)⟩

/-! ## Claim C10 — honest cascade runs verify -/

theorem sha256Round_length (s : List Nat) (kw : Nat × Nat) :
    (sha256Round s kw).length = s.length := by
  unfold sha256Round
  split
  · simp
  · rfl

theorem foldl_rounds_length (kws : List (Nat × Nat)) :
    ∀ s : List Nat, (kws.foldl sha256Round s).length = s.length := by
  induction kws with
  | nil => intro s; rfl
  | cons kw kws ih =>
    intro s
    simp only [List.foldl_cons]
    rw [ih, sha256Round_length]

theorem sha256Block_length (h b : List Nat) (hh : h.length = 8) :
    (sha256Block h b).length = 8 := by
  unfold sha256Block
  rw [List.length_zipWith, foldl_rounds_length, hh]
  simp

theorem foldl_blocks_length (blocks : List (List Nat)) :
    ∀ h : List Nat, h.length = 8 → (blocks.foldl sha256Block h).length = 8 := by
  induction blocks with
  | nil => intro h hh; simpa using hh
  | cons b blocks ih =>
    intro h hh
    simp only [List.foldl_cons]
    exact ih _ (sha256Block_length h b hh)

theorem beBytes_length (n : Nat) : ∀ x, (beBytes n x).length = n := by
  induction n with
  | zero => intro x; rfl
  | succ n ih =>
    intro x
    simp [beBytes, ih]

theorem flatMap_beBytes_length (k : Nat) :
    ∀ l : List Nat, (l.flatMap (beBytes k)).length = k * l.length := by
  intro l
  induction l with
  | nil => simp
  | cons x xs ih =>
    simp only [List.flatMap_cons, List.length_append, ih, beBytes_length,
      List.length_cons]
    ring

theorem sha256_length (m : Bytes) : (sha256 m).length = 32 := by
  unfold sha256
  rw [flatMap_beBytes_length, foldl_blocks_length]
  rfl

theorem toHex_length (b : Bytes) : (toHex b).length = 2 * b.length := by
  unfold toHex
  induction b with
  | nil => simp
  | cons x xs ih =>
    simp only [List.flatMap_cons, List.length_append, ih, List.length_cons,
      List.length_nil]
    omega

theorem sha256Hex_length (m : Bytes) : (sha256Hex m).length = 64 := by
  unfold sha256Hex
  rw [toHex_length, sha256_length]

/-- The cascade invariant: an honest run (valid permutations, nonempty
sampled proof strings) produces a result whose proof chain re-verifies and
whose final ballot count equals the input count. -/
theorem cascade_ok_verify (R : MixRand)
    (hpr : ∀ i, 0 < (R.proofRands i).length)
    (hrr : ∀ i, 0 < (R.reencRands i).length) :
    ∀ (nodes : List MixNode) (i : Nat) (cur : List EncryptedBallot),
      (∀ j, (R.perms j).Perm (List.range cur.length)) →
      ∃ fin proofs, cascadeAux R nodes i cur = some (fin, proofs)
        ∧ fin.length = cur.length
        ∧ verifyChain (hashBallotList cur) proofs = true := by
  intro nodes
  induction nodes with
  | nil =>
    intro i cur _
    exact ⟨cur, [], rfl, rfl, rfl⟩
  | cons node rest ih =>
    intro i cur hp
    obtain ⟨out, proof, hsr, hlen, hih, hoh, hpf, hrf, hpc⟩ :=
      shuffleAndReencrypt_conserves cur node (R.perms i) (R.newRands i)
        (R.proofRands i) (R.reencRands i) (R.tss i) (hp i)
    obtain ⟨fin, proofs, hc, hflen, hv⟩ := ih (i + 1) out
      (fun j => by rw [hlen]; exact hp j)
    refine ⟨fin, proof :: proofs, ?_, by omega, ?_⟩
    · simp only [cascadeAux, hsr, Option.bind_eq_bind', Option.some_bind, hc]
    · have hvs : verifyShuffleProof proof = true := by
        have hpc64 : 0 < proof.permutationCommitment.length := by
          rw [hpc, sha256Hex_length]
          omega
        simp only [verifyShuffleProof, hpf, hrf, Bool.and_eq_true, decide_eq_true_eq]
        exact ⟨⟨hpr i, hpc64⟩, hrr i⟩
      have hne1 : ¬(proof.inputHash ≠ hashBallotList cur) := by simp [hih]
      have hne2 : ¬(¬verifyShuffleProof proof = true) := by simp [hvs]
      calc verifyChain (hashBallotList cur) (proof :: proofs)
          = verifyChain proof.outputHash proofs := by
            simp only [verifyChain, if_neg hne1, if_neg hne2]
        _ = true := by rw [hoh]; exact hv

/-- C10: for every mix-net service and ballot list, verifying the result of
an honest cascade run (`verify_mixnet_proofs(mix_ballots(ballots), ballots)`)
returns true: each stage's proof input hash equals the hash of the previous
stage's output and the ballot count is preserved end to end. -/
theorem claim_C10_honest_run_verifies (svc : MixNetService)
    (ballots : List EncryptedBallot) (R : MixRand)
    (hp : ∀ j, (R.perms j).Perm (List.range ballots.length))
    (hpr : ∀ i, 0 < (R.proofRands i).length)
    (hrr : ∀ i, 0 < (R.reencRands i).length) :
    ∃ res, mixBallots svc ballots R = some res
      ∧ verifyMixnetProofs res ballots = true := by
  obtain ⟨fin, proofs, hc, hlen, hv⟩ :=
    cascade_ok_verify R hpr hrr svc.mixNodes 0 ballots hp
  refine ⟨{ mixedBallots := fin
            shuffleProofs := proofs
            decryptionShares := generateDecryptionShares svc.mixNodes R
            finalPermutationProof := proveBallotConservation ballots fin
            processingTimeMs := R.processingTime }, ?_, ?_⟩
  · simp only [mixBallots, hc, Option.bind_eq_bind', Option.some_bind]
  · simp only [verifyMixnetProofs, hv, Bool.true_and]
    simp [hlen]

theorem claim_C10_witness :
    ∃ res, mixBallots c5Svc [c5B1, c5B2] c5Rand = some res
      ∧ verifyMixnetProofs res [c5B1, c5B2] = true :=
  claim_C10_honest_run_verifies c5Svc [c5B1, c5B2] c5Rand
    (fun _ => by
      show ([0, 1] : List Nat).Perm (List.range 2)
      decide)
    (fun _ => by
      show 0 < (strBytes "proofproof").length
      decide)
    (fun _ => by
      show 0 < (strBytes "reenc").length
      decide)

/-! ## Claim C8 — encryption round trip -/

/-- C8: decrypting the output of `encrypt_ballot_selections` under the same
election id returns the original selections, for every cipher instance,
master key, IV, and valid selection set (string fields of printable ASCII
without quote/backslash — the characters `json.dumps` emits verbatim). -/
theorem claim_C8_encrypt_decrypt_roundtrip (A : AesGcm) (masterKey iv : Bytes)
    (sels : List Selection) (eid : Bytes)
    (hsel : ∀ s ∈ sels, selOk s) (hiv : ∀ x ∈ iv, x < 256) :
    decryptBallotSelections A masterKey
      (encryptBallotSelections A masterKey iv sels eid) eid = some sels := by
  set key := A.derive masterKey eid with hkey
  set pt := dumpSelections sels with hpt
  set ct := ctrXor (A.keystream key iv) 0 pt with hct
  set tg := A.tag key iv ct with htg
  have htglen : tg.length = 16 := by rw [htg]; exact A.tag_len key iv ct
  have harith : ct.length + 16 - 16 = ct.length := by omega
  have htake : (ct ++ tg).take ((ct ++ tg).length - 16) = ct := by
    rw [List.length_append, htglen, harith, List.take_left]
  have hdrop : (ct ++ tg).drop ((ct ++ tg).length - 16) = tg := by
    rw [List.length_append, htglen, harith, List.drop_left]
  have hctlt : ∀ x ∈ ct, x < 256 := by
    rw [hct]
    exact ctrXor_lt _ (fun i => A.keystream_lt key iv i) pt 0
      (dumpSelections_lt sels hsel)
  have htglt : ∀ x ∈ tg, x < 256 := by
    rw [htg]
    exact A.tag_lt key iv ct
  have hfull : aesgcmEncrypt A key iv pt = ct ++ tg := by
    rw [hct, htg, hct]
    rfl
  have henc : encryptBallotSelections A masterKey iv sels eid
      = { encrypted := b64Encode ct, iv := b64Encode iv, authTag := b64Encode tg } := by
    unfold encryptBallotSelections
    dsimp only
    rw [← hkey, ← hpt, hfull, htake, hdrop]
  rw [henc]
  unfold decryptBallotSelections
  dsimp only
  rw [← hkey, b64_roundtrip ct hctlt, b64_roundtrip iv hiv, b64_roundtrip tg htglt]
  unfold aesgcmDecrypt
  dsimp only
  rw [htake, hdrop, if_pos htg]
  rw [hct, ctrXor_invol, hpt]
  exact loadsSelections_dumpSelections sels hsel

theorem claim_C8_witness :
    (∀ s ∈ [witSel], selOk s)
    ∧ decryptBallotSelections dummyCipher (strBytes "mk")
        (encryptBallotSelections dummyCipher (strBytes "mk") (strBytes "iviv")
          [witSel] (strBytes "e1")) (strBytes "e1") = some [witSel] :=
  ⟨by decide,
    claim_C8_encrypt_decrypt_roundtrip dummyCipher (strBytes "mk") (strBytes "iviv")
      [witSel] (strBytes "e1") (by decide) (by decide)⟩

/-- C5 witness for the amended conservation statement. -/
theorem claim_C5_witness :
    (([1, 0] : List Nat).Perm (List.range 2))
    ∧ ((∃ out proof,
        shuffleAndReencrypt [c5B1, c5B2] c5Node [1, 0] (fun _ => strBytes "rr")
          (strBytes "proofproof") (strBytes "reenc") 7 = some (out, proof)
        ∧ out.length = [c5B1, c5B2].length)
      ∧ ∀ (result : MixnetResult) (original : List EncryptedBallot),
          result.mixedBallots.length ≠ original.length →
          verifyMixnetProofs result original = false) :=
  ⟨by decide,
    claim_C5_conservation [c5B1, c5B2] c5Node [1, 0] (fun _ => strBytes "rr")
      (strBytes "proofproof") (strBytes "reenc") 7
      (by
        show ([1, 0] : List Nat).Perm (List.range 2)
        decide)⟩

/-! ## Claim C7 — credential issuance conflicts -/

theorem queryOne_eq_some {α : Type} (l : List α) (p : α → Bool) (x : α) :
    queryOne l p = .ok (some x) ↔ l.filter p = [x] := by
  unfold queryOne
  cases hf : l.filter p with
  | nil => simp
  | cons a as =>
    cases as with
    | nil => simp
    | cons b bs => simp

theorem queryExactlyOne_eq {α : Type} (l : List α) (p : α → Bool) (x : α) :
    queryExactlyOne l p = .ok x ↔ l.filter p = [x] := by
  unfold queryExactlyOne
  cases hf : l.filter p with
  | nil => simp
  | cons a as =>
    cases as with
    | nil => simp
    | cons b bs => simp

/-- C7: with the election active and in its voting window and the
participant found, `request_vote_token` fails with a 409 ConflictError and
commits nothing whenever (a) the participant has VOTED and the election
forbids vote change or its deadline has passed, or (b) the participant is
not blocked/rejected and an unexpired ISSUED credential already exists. -/
theorem claim_C7_issuance_conflicts (db : Db) (eid vh : Bytes) (r : TokenRand)
    (election : Election) (voter : Voter)
    (he : db.elections.filter (fun e => e.id == eid) = [election])
    (hactive : election.status = ElectionStatus.ACTIVE)
    (hstart : election.votingStartAt ≤ r.now)
    (hend : r.now ≤ election.votingEndAt)
    (hv : db.voters.filter
      (fun v => v.electionId == eid && v.voterHash == vh) = [voter])
    (hcase :
      (voter.status = VoterStatus.VOTED
        ∧ (election.allowVoteChange = false
            ∨ deadlinePassed election.voteChangeDeadline r.now = true))
      ∨ (voter.status ≠ VoterStatus.BLOCKED ∧ voter.status ≠ VoterStatus.REJECTED
          ∧ ∃ tok, db.tokens.filter (fun t => t.voterId == voter.id
              && t.status == VoteTokenStatus.ISSUED
              && r.now < t.expiresAt) = [tok])) :
    ∃ d, requestVoteToken db eid vh r = (.error (.http 409 d), []) := by
  suffices h : ∃ d, requestVoteTokenCore db eid vh r = .error (.http 409 d) by
    obtain ⟨d, hd⟩ := h
    refine ⟨d, ?_⟩
    unfold requestVoteToken
    rw [hd]
  have hq1 : queryOne db.elections (fun e => e.id == eid) = .ok (some election) :=
    (queryOne_eq_some _ _ _).mpr he
  have hq2 : queryOne db.voters
      (fun v => v.electionId == eid && v.voterHash == vh) = .ok (some voter) :=
    (queryOne_eq_some _ _ _).mpr hv
  unfold requestVoteTokenCore
  rw [hq1]
  dsimp only
  rw [if_neg (by simp [hactive]), if_neg (by omega), if_neg (by omega), hq2]
  dsimp only
  rcases hcase with ⟨hvoted, hflag⟩ | ⟨hnb, hnr, tok, htok⟩
  · rw [if_neg (by simp [hvoted]), if_neg (by simp [hvoted])]
    by_cases hallow : election.allowVoteChange
    · have hdl : deadlinePassed election.voteChangeDeadline r.now = true := by
        rcases hflag with hf | hf
        · rw [hallow] at hf
          cases hf
        · exact hf
      rw [if_neg (by simp [hallow]), if_pos ⟨hvoted, hdl⟩]
      exact ⟨_, rfl⟩
    · rw [if_pos ⟨hvoted, hallow⟩]
      exact ⟨_, rfl⟩
  · have hq3 : queryOne db.tokens (fun t => t.voterId == voter.id
        && t.status == VoteTokenStatus.ISSUED && r.now < t.expiresAt)
        = .ok (some tok) := (queryOne_eq_some _ _ _).mpr htok
    rw [if_neg (by simp [hnb]), if_neg (by simp [hnr])]
    by_cases hc3 : voter.status = VoterStatus.VOTED ∧ ¬election.allowVoteChange
    · rw [if_pos hc3]
      exact ⟨_, rfl⟩
    · rw [if_neg hc3]
      by_cases hc4 : voter.status = VoterStatus.VOTED
          ∧ deadlinePassed election.voteChangeDeadline r.now
      · rw [if_pos hc4]
        exact ⟨_, rfl⟩
      · rw [if_neg hc4, hq3]
        exact ⟨_, rfl⟩

theorem claim_C7_witness :
    ∃ d, requestVoteToken c7Db (strBytes "e1") (strBytes "vh1") witTokRand
      = (.error (.http 409 d), []) :=
  claim_C7_issuance_conflicts c7Db (strBytes "e1") (strBytes "vh1") witTokRand
    c7Election c7Voter (by decide) (by decide) (by decide) (by decide) (by decide)
    (Or.inl ⟨by decide, Or.inl (by decide)⟩)

/-! ## Claims C1/C2 — single consumption and atomicity of `submit_ballot` -/

/-- Inversion of a successful `submit_ballot` transaction: the token lookup
found exactly one ISSUED credential for the secret, the voter lookup found
exactly one row, and the committed state is the staged success state. -/
theorem submitBallotCore_ok_inv (A : AesGcm) (masterKey : Bytes) (db : Db)
    (eid secret : Bytes) (sels : List Selection) (ch : VoteChannel)
    (r : SubmitRand) (resp : BallotResponse) (db1 : Db)
    (hok : submitBallotCore A masterKey db eid secret sels ch r = .ok (resp, db1)) :
    ∃ vt voter,
      db.tokens.filter (fun t => t.tokenHash == hashVoteToken secret
        && t.electionId == eid) = [vt]
      ∧ vt.status = VoteTokenStatus.ISSUED
      ∧ db.voters.filter (fun v => v.id == vt.voterId) = [voter]
      ∧ (resp, db1) = submitBallotFinish A masterKey db eid (hashVoteToken secret)
          sels ch r vt voter := by
  unfold submitBallotCore at hok
  dsimp only at hok
  repeat' split at hok
  all_goals first
    | exact (Except.noConfusion hok)
    | skip
  rename_i x4 voteToken hq1 hniss hnexp x3 election hq2 hact hwin hsel0 x2 u hval
    x1 hq3 x0 voter hq4
  rw [queryOne_eq_some] at hq1
  rw [queryExactlyOne_eq] at hq4
  exact ⟨voteToken, voter, hq1, not_ne_iff.mp hniss, hq4, (Except.ok.inj hok).symm⟩

theorem submitBallotFinish_tokens (A : AesGcm) (masterKey : Bytes) (db : Db)
    (eid th : Bytes) (sels : List Selection) (ch : VoteChannel) (r : SubmitRand)
    (vt : VoteToken) (voter : Voter) :
    (submitBallotFinish A masterKey db eid th sels ch r vt voter).2.tokens
      = db.tokens.map (usedUpdate vt r.now) := rfl

theorem submitBallotFinish_voters (A : AesGcm) (masterKey : Bytes) (db : Db)
    (eid th : Bytes) (sels : List Selection) (ch : VoteChannel) (r : SubmitRand)
    (vt : VoteToken) (voter : Voter) :
    (submitBallotFinish A masterKey db eid th sels ch r vt voter).2.voters
      = db.voters.map (votedUpdate voter r.now) := rfl

theorem submitBallotFinish_ballots (A : AesGcm) (masterKey : Bytes) (db : Db)
    (eid th : Bytes) (sels : List Selection) (ch : VoteChannel) (r : SubmitRand)
    (vt : VoteToken) (voter : Voter) :
    ∃ b, (submitBallotFinish A masterKey db eid th sels ch r vt voter).2.ballots
        = db.ballots ++ [b]
      ∧ b.tokenHash = th ∧ b.electionId = eid
      ∧ b.commitmentHash
          = (submitBallotFinish A masterKey db eid th sels ch r vt voter).1.commitmentHash :=
  ⟨_, rfl, rfl, rfl, rfl⟩

theorem filter_map_comm {α : Type} (u : α → α) (p : α → Bool)
    (hpu : ∀ t, p (u t) = p t) :
    ∀ l : List α, (l.map u).filter p = (l.filter p).map u := by
  intro l
  induction l with
  | nil => rfl
  | cons x xs ih =>
    simp only [List.map_cons, List.filter_cons, hpu]
    cases hp : p x <;> simp [hp, ih]

/-- The token-matching predicate of `submit_ballot` ignores the fields the
USED update changes. -/
theorem usedUpdate_pred (vt : VoteToken) (now : Nat) (h eidB : Bytes) :
    ∀ t, ((fun t : VoteToken => t.tokenHash == h && t.electionId == eidB)
        (usedUpdate vt now t))
      = (fun t : VoteToken => t.tokenHash == h && t.electionId == eidB) t := by
  intro t
  unfold usedUpdate
  by_cases hid : (t.id == vt.id) = true
  · rw [if_pos hid]
  · rw [if_neg hid]

/-- C1: once `submit_ballot` succeeds on a secret, every committed snapshot
has that credential USED, and any later `submit_ballot` call with the same
secret (on any committed snapshot, any cipher/selections/randomness) fails
with the 409 ConflictError for an already-used token and commits nothing —
in particular no second ballot is ever created for that credential. -/
theorem claim_C1_token_single_use (A : AesGcm) (masterKey : Bytes) (db : Db)
    (eid secret : Bytes) (sels : List Selection) (ch : VoteChannel)
    (r : SubmitRand) (fab : Option FabricResult) (resp : BallotResponse)
    (snaps : List Db)
    (hok : submitBallot A masterKey db eid secret sels ch r fab = (.ok resp, snaps)) :
    ∀ d ∈ snaps, ∀ (A2 : AesGcm) (masterKey2 : Bytes) (sels2 : List Selection)
      (ch2 : VoteChannel) (r2 : SubmitRand) (fab2 : Option FabricResult),
      submitBallot A2 masterKey2 d eid secret sels2 ch2 r2 fab2
        = (.error (.http 409 .tokenNotIssued), []) := by
  unfold submitBallot at hok
  cases hc : submitBallotCore A masterKey db eid secret sels ch r with
  | error e =>
    rw [hc] at hok
    simp at hok
  | ok pr =>
    obtain ⟨resp0, db1⟩ := pr
    obtain ⟨vt, voter, hq1, hiss, hqv, hfin⟩ :=
      submitBallotCore_ok_inv A masterKey db eid secret sels ch r resp0 db1 hc
    have hdb1 : db1 = (submitBallotFinish A masterKey db eid (hashVoteToken secret)
        sels ch r vt voter).2 := congrArg Prod.snd hfin
    have htokens : db1.tokens = db.tokens.map (usedUpdate vt r.now) := by
      rw [hdb1, submitBallotFinish_tokens]
    have hfilter : db1.tokens.filter
        (fun t => t.tokenHash == hashVoteToken secret && t.electionId == eid)
        = [usedUpdate vt r.now vt] := by
      rw [htokens, filter_map_comm _ _ (usedUpdate_pred vt r.now _ _), hq1]
      rfl
    have hused : (usedUpdate vt r.now vt).status = VoteTokenStatus.USED := by
      unfold usedUpdate
      rw [if_pos (by simp)]
    -- every snapshot's token table is db1's
    have hconflict : ∀ d : Db,
        d.tokens.filter (fun t => t.tokenHash == hashVoteToken secret
          && t.electionId == eid) = [usedUpdate vt r.now vt] →
        ∀ (A2 : AesGcm) (masterKey2 : Bytes) (sels2 : List Selection)
          (ch2 : VoteChannel) (r2 : SubmitRand) (fab2 : Option FabricResult),
          submitBallot A2 masterKey2 d eid secret sels2 ch2 r2 fab2
            = (.error (.http 409 .tokenNotIssued), []) := by
      intro d hd A2 masterKey2 sels2 ch2 r2 fab2
      have hq : queryOne d.tokens (fun t => t.tokenHash == hashVoteToken secret
          && t.electionId == eid) = .ok (some (usedUpdate vt r.now vt)) :=
        (queryOne_eq_some _ _ _).mpr hd
      have hcore : submitBallotCore A2 masterKey2 d eid secret sels2 ch2 r2
          = .error (.http 409 .tokenNotIssued) := by
        unfold submitBallotCore
        dsimp only
        rw [hq]
        simp only []
        rw [if_pos (by rw [hused]; simp)]
      unfold submitBallot
      rw [hcore]
    rw [hc] at hok
    cases fab with
    | none =>
      simp only [Prod.mk.injEq] at hok
      obtain ⟨-, hsnaps⟩ := hok
      intro d hd
      rw [← hsnaps] at hd
      simp only [List.mem_singleton] at hd
      subst hd
      exact hconflict _ hfilter
    | some fr =>
      simp only [Prod.mk.injEq] at hok
      obtain ⟨-, hsnaps⟩ := hok
      intro d hd
      rw [← hsnaps] at hd
      simp only [List.mem_cons, List.mem_singleton, List.not_mem_nil, or_false] at hd
      rcases hd with hd | hd
      · subst hd
        exact hconflict _ hfilter
      · subst hd
        exact hconflict _ hfilter

/-- The post-anchor ballot update leaves token hash and election id alone. -/
theorem confirmUpdate_fields (ballotId : Bytes) (fr : FabricResult) (cNow : Nat)
    (b : Ballot) :
    (confirmUpdate ballotId fr cNow b).tokenHash = b.tokenHash
    ∧ (confirmUpdate ballotId fr cNow b).electionId = b.electionId := by
  unfold confirmUpdate
  split
  · exact ⟨rfl, rfl⟩
  · exact ⟨rfl, rfl⟩

/-- C2: `submit_ballot` is atomic.  If it fails, nothing is committed (the
snapshot list is empty, the stored state is the input state); every state
it does commit already contains the new ballot, the USED credential and
the VOTED participant together — no partial write is ever observable. -/
theorem claim_C2_submit_atomic (A : AesGcm) (masterKey : Bytes) (db : Db)
    (eid secret : Bytes) (sels : List Selection) (ch : VoteChannel)
    (r : SubmitRand) (fab : Option FabricResult) :
    ((∃ e, (submitBallot A masterKey db eid secret sels ch r fab).1 = .error e) →
      (submitBallot A masterKey db eid secret sels ch r fab).2 = [])
    ∧ ∀ d ∈ (submitBallot A masterKey db eid secret sels ch r fab).2,
        submittedInvariant d (hashVoteToken secret) eid := by
  cases hc : submitBallotCore A masterKey db eid secret sels ch r with
  | error e =>
    constructor
    · intro _
      unfold submitBallot
      rw [hc]
    · intro d hd
      unfold submitBallot at hd
      rw [hc] at hd
      simp at hd
  | ok pr =>
    obtain ⟨resp0, db1⟩ := pr
    obtain ⟨vt, voter, hq1, hiss, hqv, hfin⟩ :=
      submitBallotCore_ok_inv A masterKey db eid secret sels ch r resp0 db1 hc
    have hdb1 : db1 = (submitBallotFinish A masterKey db eid (hashVoteToken secret)
        sels ch r vt voter).2 := congrArg Prod.snd hfin
    -- facts about the matched token and voter rows
    have hvt_mem : vt ∈ db.tokens ∧ (vt.tokenHash == hashVoteToken secret
        && vt.electionId == eid) = true := by
      have : vt ∈ db.tokens.filter (fun t => t.tokenHash == hashVoteToken secret
          && t.electionId == eid) := by
        rw [hq1]
        simp
      exact ⟨(List.mem_filter.mp this).1, (List.mem_filter.mp this).2⟩
    have hvt_hash : vt.tokenHash = hashVoteToken secret := by
      have := hvt_mem.2
      simp only [Bool.and_eq_true, beq_iff_eq] at this
      exact this.1
    have hvt_eid : vt.electionId = eid := by
      have := hvt_mem.2
      simp only [Bool.and_eq_true, beq_iff_eq] at this
      exact this.2
    have hvoter_mem : voter ∈ db.voters ∧ (voter.id == vt.voterId) = true := by
      have : voter ∈ db.voters.filter (fun v => v.id == vt.voterId) := by
        rw [hqv]
        simp
      exact ⟨(List.mem_filter.mp this).1, (List.mem_filter.mp this).2⟩
    have hvoter_id : voter.id = vt.voterId := by
      have := hvoter_mem.2
      simpa using this
    -- the committed first snapshot satisfies the invariant
    have hinv1 : submittedInvariant db1 (hashVoteToken secret) eid := by
      refine ⟨?_, ?_, ?_⟩
      · obtain ⟨b, hb, hbth, hbe, _⟩ := submitBallotFinish_ballots A masterKey db
          eid (hashVoteToken secret) sels ch r vt voter
        refine ⟨b, ?_, hbth, hbe⟩
        rw [hdb1, hb]
        simp
      · refine ⟨usedUpdate vt r.now vt, ?_, ?_, ?_, ?_, ?_⟩
        · rw [hdb1, submitBallotFinish_tokens]
          exact List.mem_map_of_mem _ hvt_mem.1
        · unfold usedUpdate
          rw [if_pos (by simp)]
          exact hvt_hash
        · unfold usedUpdate
          rw [if_pos (by simp)]
          exact hvt_eid
        · unfold usedUpdate
          rw [if_pos (by simp)]
        · refine ⟨votedUpdate voter r.now voter, ?_, ?_, ?_⟩
          · rw [hdb1, submitBallotFinish_voters]
            exact List.mem_map_of_mem _ hvoter_mem.1
          · unfold votedUpdate usedUpdate
            rw [if_pos (by simp), if_pos (by simp)]
            exact hvoter_id
          · unfold votedUpdate
            rw [if_pos (by simp)]
      · intro t ht hth heid
        rw [hdb1, submitBallotFinish_tokens] at ht
        obtain ⟨t0, ht0, rfl⟩ := List.mem_map.mp ht
        unfold usedUpdate at hth heid ⊢
        by_cases hid : (t0.id == vt.id) = true
        · rw [if_pos hid]
        · rw [if_neg hid] at hth heid ⊢
          have ht0f : t0 ∈ db.tokens.filter
              (fun t => t.tokenHash == hashVoteToken secret && t.electionId == eid) :=
            List.mem_filter.mpr ⟨ht0, by simp [hth, heid]⟩
          rw [hq1] at ht0f
          simp only [List.mem_singleton] at ht0f
          subst ht0f
          simp at hid
    -- the second snapshot (post-anchoring) also satisfies it
    have hinv2 : ∀ fr : FabricResult, submittedInvariant
        { db1 with
          ballots := db1.ballots.map
            (confirmUpdate (strBytes "bal_" ++ r.ballotIdSuffix) fr r.confirmNow) }
        (hashVoteToken secret) eid := by
      intro fr
      obtain ⟨⟨b, hb, hbth, hbe⟩, h2, h3⟩ := hinv1
      refine ⟨?_, h2, h3⟩
      refine ⟨_, List.mem_map_of_mem _ hb, ?_, ?_⟩
      · rw [(confirmUpdate_fields _ fr r.confirmNow b).1]
        exact hbth
      · rw [(confirmUpdate_fields _ fr r.confirmNow b).2]
        exact hbe
    constructor
    · intro hex
      obtain ⟨e, he⟩ := hex
      unfold submitBallot at he
      rw [hc] at he
      cases fab <;> simp at he
    · intro d hd
      unfold submitBallot at hd
      rw [hc] at hd
      cases fab with
      | none =>
        simp only [List.mem_singleton] at hd
        subst hd
        exact hinv1
      | some fr =>
        simp only [List.mem_cons, List.mem_singleton, List.not_mem_nil, or_false] at hd
        rcases hd with hd | hd
        · subst hd
          exact hinv1
        · subst hd
          exact hinv2 fr

theorem claim_C1_witness :
    submitBallot dummyCipher (strBytes "mk2") (witSubmit.2.headD witDb)
      (strBytes "e1") witSecret [witSel] .WEB witRand none
      = (.error (.http 409 .tokenNotIssued), []) :=
  claim_C1_token_single_use dummyCipher (strBytes "mk") witDb (strBytes "e1")
    witSecret [witSel] .WEB witRand none witResp witSubmit.2 (by decide)
    (witSubmit.2.headD witDb) (by decide) dummyCipher (strBytes "mk2") [witSel]
    .WEB witRand none

end ObserverNet
